import Mathlib

/-!
Verification of the QuotesManager permission-synchronization and
membership-lifecycle engine (Appwrite function `qm-api/index.js`).

The JavaScript source is shallowly embedded: documents are structures, the
document store is a `GroupState` value holding all documents of one group,
permissions (Appwrite ACL strings such as `read("user:ID")`) are the inductive
type `Perm` whose string encoding is injective, and every fallible operation
returns `Except String` carrying the source's error messages.  Remote writes
become pure state transformations; the write count of the reconciler is made
explicit so that "zero writes" claims are statable.
-/

/-- An ACL subject: a concrete user (`Role.user(id)`) or any authenticated
user (`Role.users()`). -/
inductive Subject
  | user (id : String)
  | users
deriving DecidableEq, Repr

/-- An ACL entry, mirroring the Appwrite permission strings
`read(...)`, `update(...)`, `delete(...)`. -/
inductive Perm
  | read (s : Subject)
  | update (s : Subject)
  | delete (s : Subject)
deriving DecidableEq, Repr

/-- Worker for first-occurrence deduplication, carrying the set of values
already emitted. -/
def dedupFirstAux (seen : List String) : List String → List String
  | [] => []
  | x :: xs =>
    if x ∈ seen then dedupFirstAux seen xs
    else x :: dedupFirstAux (x :: seen) xs

/-- First-occurrence deduplication, the behaviour of JavaScript
`Array.from(new Set(xs))`. -/
def dedupFirst (l : List String) : List String :=
  dedupFirstAux [] l

/-- `unique(values)` from index.js: drop falsy entries (empty strings) and
deduplicate keeping first occurrences. -/
def unique (values : List String) : List String :=
  dedupFirst (values.filter (fun v => v ≠ ""))

/-- `buildReadPermissions` from index.js. -/
def buildReadPermissions (userIds : List String) : List Perm :=
  (unique userIds).map (fun id => Perm.read (Subject.user id))

/-- `buildUpdatePermissions` from index.js. -/
def buildUpdatePermissions (userIds : List String) : List Perm :=
  (unique userIds).map (fun id => Perm.update (Subject.user id))

/-- `buildDeletePermissions` from index.js. -/
def buildDeletePermissions (userIds : List String) : List Perm :=
  (unique userIds).map (fun id => Perm.delete (Subject.user id))

/-- `groupPermissions(memberIds, adminIds, ownerId)` from index.js.
`mergePermissions` is concatenation; its `filter(Boolean)` never drops a
permission string produced by the builders. -/
def groupPermissions (memberIds adminIds : List String) (ownerId : String) : List Perm :=
  buildReadPermissions memberIds ++ buildUpdatePermissions adminIds ++
    buildDeletePermissions [ownerId]

/-- `membershipPermissions(memberIds, adminIds, membershipUserId)` from index.js. -/
def membershipPermissions (memberIds adminIds : List String) (membershipUserId : String) :
    List Perm :=
  buildReadPermissions memberIds ++
    buildUpdatePermissions (unique (adminIds ++ [membershipUserId])) ++
    buildDeletePermissions (unique (adminIds ++ [membershipUserId]))

/-- `personPermissions(memberIds, adminIds, isPlaceholder)` from index.js.
Update rights go to every member regardless of placeholder status; the
placeholder flag only widens the delete rights. -/
def personPermissions (memberIds adminIds : List String) (isPlaceholder : Bool) : List Perm :=
  buildReadPermissions memberIds ++ buildUpdatePermissions memberIds ++
    buildDeletePermissions (if isPlaceholder then memberIds else adminIds)

/-- `quotePermissions(memberIds, adminIds)` from index.js. -/
def quotePermissions (memberIds adminIds : List String) : List Perm :=
  buildReadPermissions memberIds ++ buildUpdatePermissions memberIds ++
    buildDeletePermissions adminIds

/-- `invitePermissions(adminIds)` from index.js; invites are readable by any
authenticated user so that outsiders can resolve codes. -/
def invitePermissions (adminIds : List String) : List Perm :=
  Perm.read Subject.users :: (buildUpdatePermissions adminIds ++
    buildDeletePermissions adminIds)

/-- `permissionsEqual` from index.js compares `Array.from(new Set(xs)).sort()`
of the two permission-string lists via JSON; since the string encoding of
`Perm` is injective and sorted deduplicated lists agree exactly when the
underlying sets agree, this is set equality of the two lists. -/
def permissionsEqual (a b : List Perm) : Bool :=
  a.all (fun p => decide (p ∈ b)) && b.all (fun p => decide (p ∈ a))

/-- One conditional permission write of the reconciler: compare current ACL
against the desired ACL and update (count 1) only when they differ. -/
def updateDoc (current desired : List Perm) : List Perm × Nat :=
  if permissionsEqual current desired then (current, 0) else (desired, 1)

/-- A Membership document (fields used by the core, plus its ACL). -/
structure MembershipDoc where
  id : String
  userId : String
  role : String
  displayName : String
  personId : String
  claimedPlaceholderId : String
  claimedPlaceholderName : String
  perms : List Perm
deriving DecidableEq, Repr

/-- A Person document. -/
structure PersonDoc where
  id : String
  name : String
  userId : String
  isPlaceholder : Bool
  perms : List Perm
deriving DecidableEq, Repr

/-- A Quote document; `sourcePlaceholderId` is empty until a claim tags it. -/
structure QuoteDoc where
  id : String
  personId : String
  text : String
  sourcePlaceholderId : String
  perms : List Perm
deriving DecidableEq, Repr

/-- An Invite document. -/
structure InviteDoc where
  id : String
  code : String
  name : String
  perms : List Perm
deriving DecidableEq, Repr

/-- All documents of one group, together with the group document's own fields
and a counter from which `ID.unique()` identifiers are generated. -/
structure GroupState where
  groupName : String
  ownerId : String
  groupPerms : List Perm
  memberships : List MembershipDoc
  people : List PersonDoc
  quotes : List QuoteDoc
  invites : List InviteDoc
  fresh : Nat
deriving DecidableEq, Repr

/-- Identifier produced by the document store's `ID.unique()`; modelled as a
counter-indexed name. -/
def genId (n : Nat) : String :=
  "gen_" ++ toString n

/-- JavaScript `a || b` on strings: the empty string is falsy. -/
def jsOr (a b : String) : String :=
  if a = "" then b else a

/-- JavaScript `String.prototype.toUpperCase()` (character-wise upper case). -/
def jsToUpper (s : String) : String :=
  String.mk (s.data.map Char.toUpper)

/-- JavaScript `String.prototype.trim()`: strip whitespace from both ends. -/
def jsTrim (s : String) : String :=
  String.mk (((s.data.dropWhile (fun c => c.isWhitespace)).reverse.dropWhile
    (fun c => c.isWhitespace)).reverse)

/-- `memberIds`: all userIds of the roster, in roster order. -/
def rosterMemberIds (ms : List MembershipDoc) : List String :=
  ms.map (fun m => m.userId)

/-- `adminIds`: userIds of memberships whose role is not `member`
(admins and the owner). -/
def rosterAdminIds (ms : List MembershipDoc) : List String :=
  (ms.filter (fun m => m.role ≠ "member")).map (fun m => m.userId)

/-- `ownerId = owner?.userId ?? adminIds[0]` from `syncGroupPermissionsInternal`. -/
def rosterOwnerId (ms : List MembershipDoc) : String :=
  match ms.find? (fun m => m.role = "owner") with
  | some m => m.userId
  | none => (rosterAdminIds ms).headD ""

/-- `role === "owner" || role === "admin"`. -/
def isAdminRole (r : String) : Bool :=
  r = "owner" || r = "admin"

/-- The membership-ACL loop of `syncGroupPermissionsInternal`: each membership
document is compared against its desired ACL and rewritten only on mismatch;
the second component counts the writes. -/
def syncMemberships (memberIds adminIds : List String) (ms : List MembershipDoc) :
    List MembershipDoc × Nat :=
  (ms.map (fun m =>
      { m with perms := (updateDoc m.perms (membershipPermissions memberIds adminIds m.userId)).1 }),
   (ms.map (fun m =>
      (updateDoc m.perms (membershipPermissions memberIds adminIds m.userId)).2)).sum)

/-- The people-ACL loop of `syncGroupPermissionsInternal`. -/
def syncPeople (memberIds adminIds : List String) (ps : List PersonDoc) :
    List PersonDoc × Nat :=
  (ps.map (fun p =>
      { p with perms := (updateDoc p.perms (personPermissions memberIds adminIds p.isPlaceholder)).1 }),
   (ps.map (fun p =>
      (updateDoc p.perms (personPermissions memberIds adminIds p.isPlaceholder)).2)).sum)

/-- The quotes-ACL loop of `syncGroupPermissionsInternal`. -/
def syncQuotes (memberIds adminIds : List String) (qs : List QuoteDoc) :
    List QuoteDoc × Nat :=
  (qs.map (fun q =>
      { q with perms := (updateDoc q.perms (quotePermissions memberIds adminIds)).1 }),
   (qs.map (fun q =>
      (updateDoc q.perms (quotePermissions memberIds adminIds)).2)).sum)

/-- The invites-ACL loop of `syncGroupPermissionsInternal`. -/
def syncInvites (adminIds : List String) (is : List InviteDoc) :
    List InviteDoc × Nat :=
  (is.map (fun i =>
      { i with perms := (updateDoc i.perms (invitePermissions adminIds)).1 }),
   (is.map (fun i =>
      (updateDoc i.perms (invitePermissions adminIds)).2)).sum)

/-- The desired Group-document ACL as computed in
`syncGroupPermissionsInternal`, including the fallback to the first admin when
no membership carries the `owner` role. -/
def desiredGroupPerms (ms : List MembershipDoc) : List Perm :=
  groupPermissions (rosterMemberIds ms) (rosterAdminIds ms)
    (jsOr (rosterOwnerId ms) ((rosterAdminIds ms).headD ""))

/-- The write phase of `syncGroupPermissionsInternal`: derive the roster,
compare every document's ACL with the policy-derived one and rewrite on
mismatch, returning the new state and the total number of permission writes.
All updates carry an empty field payload; only `$permissions` changes. -/
def syncPure (s : GroupState) : GroupState × Nat :=
  ({ s with
      groupPerms := (updateDoc s.groupPerms (desiredGroupPerms s.memberships)).1,
      memberships := (syncMemberships (rosterMemberIds s.memberships)
        (rosterAdminIds s.memberships) s.memberships).1,
      people := (syncPeople (rosterMemberIds s.memberships)
        (rosterAdminIds s.memberships) s.people).1,
      quotes := (syncQuotes (rosterMemberIds s.memberships)
        (rosterAdminIds s.memberships) s.quotes).1,
      invites := (syncInvites (rosterAdminIds s.memberships) s.invites).1 },
   (updateDoc s.groupPerms (desiredGroupPerms s.memberships)).2 +
     (syncMemberships (rosterMemberIds s.memberships)
       (rosterAdminIds s.memberships) s.memberships).2 +
     (syncPeople (rosterMemberIds s.memberships)
       (rosterAdminIds s.memberships) s.people).2 +
     (syncQuotes (rosterMemberIds s.memberships)
       (rosterAdminIds s.memberships) s.quotes).2 +
     (syncInvites (rosterAdminIds s.memberships) s.invites).2)

/-- `syncGroupPermissionsInternal(databases, config, groupId, actorId,
enforceAdmin)`: when `enforceAdmin` is set, the actor's membership is looked
up and must be admin or owner (`ensureAdmin`), then the ACLs are reconciled. -/
def syncGroupPermissionsInternal (enforceAdmin : Bool) (actorId : String) (s : GroupState) :
    Except String (GroupState × Nat) :=
  if enforceAdmin then
    match s.memberships.find? (fun m => m.userId = actorId) with
    | some m =>
        if isAdminRole m.role then Except.ok (syncPure s)
        else Except.error "Admin permissions required."
    | none => Except.error "Admin permissions required."
  else Except.ok (syncPure s)

/-- The exposed `syncGroupPermissions` action (admin check enforced). -/
def syncGroupPermissions (actorId : String) (s : GroupState) :
    Except String (GroupState × Nat) :=
  syncGroupPermissionsInternal true actorId s

/-- The 32-character invite alphabet of `randomInviteCode` (no I, O, 0, 1). -/
def alphabet : List Char :=
  "ABCDEFGHJKLMNPQRSTUVWXYZ23456789".toList

/-- `randomInviteCode`: each raw random 32-bit value indexes the alphabet
modulo its length.  The random source is made explicit as the list of drawn
values (length 8 in the source, which allocates `Uint32Array(8)`). -/
def randomInviteCode (values : List Nat) : String :=
  String.mk (values.map (fun v => alphabet.getD (v % alphabet.length) 'A'))

/-- `maxAttempts` of `createInviteDocument`. -/
def maxAttempts : Nat := 5

/-- The retry loop of `createInviteDocument`: for each remaining draw,
generate a code, query the existing invites for a collision, retry on
collision and otherwise create the invite with that code.  Returns the
outcome together with the number of attempts consumed. -/
def createInviteGo (existingCodes : List String) : List (List Nat) →
    Except String String × Nat
  | [] => (Except.error "Could not generate a unique invite code.", 0)
  | d :: rest =>
    let code := randomInviteCode d
    if existingCodes.contains code then
      let r := createInviteGo existingCodes rest
      (r.1, r.2 + 1)
    else
      (Except.ok code, 1)

/-- `createInviteDocument` restricted to its code-generation contract: run the
retry loop for at most `maxAttempts` draws against the codes of all existing
invites; `Except.ok code` stands for creating the invite with that code. -/
def createInviteDocument (existingCodes : List String) (draws : List (List Nat)) :
    Except String String × Nat :=
  createInviteGo existingCodes (draws.take maxAttempts)

/-- Result shape of `joinGroupByCode`: the (possibly pre-existing) membership
and person returned to the caller, plus the updated store state. -/
structure JoinResult where
  state : GroupState
  membership : MembershipDoc
  person : Option PersonDoc
deriving DecidableEq, Repr

/-- `joinGroupByCode`: normalize the code, resolve the invite (invalid-invite
error if absent), return the existing membership unchanged when the caller is
already a member, otherwise create a non-placeholder Person and a `member`
Membership and reconcile with the admin check suppressed. -/
def joinGroupByCode (s : GroupState) (actorId code displayName0 : String) :
    Except String JoinResult :=
  let codeN := jsToUpper (jsTrim code)
  let displayName := jsTrim (jsOr displayName0 "Member")
  if codeN = "" then Except.error "Invite code is required."
  else
    match s.invites.find? (fun i => i.code = codeN) with
    | none => Except.error "Invite code is invalid."
    | some _ =>
      match s.memberships.find? (fun m => m.userId = actorId) with
      | some m =>
          Except.ok ⟨s, m,
            if m.personId = "" then none
            else s.people.find? (fun p => p.id = m.personId)⟩
      | none =>
        let memberIds := unique (rosterMemberIds s.memberships ++ [actorId])
        let adminIds := rosterAdminIds s.memberships
        let person : PersonDoc :=
          ⟨genId s.fresh, displayName, actorId, false,
           personPermissions memberIds adminIds false⟩
        let mem : MembershipDoc :=
          ⟨genId (s.fresh + 1), actorId, "member", displayName, person.id, "", "",
           membershipPermissions memberIds adminIds actorId⟩
        let s1 : GroupState :=
          { s with people := s.people ++ [person],
                   memberships := s.memberships ++ [mem],
                   fresh := s.fresh + 2 }
        match syncGroupPermissionsInternal false actorId s1 with
        | Except.error e => Except.error e
        | Except.ok (s2, _) => Except.ok ⟨s2, mem, some person⟩

/-- `claimPlaceholder`: the caller's membership must carry a `personId` and no
existing claim; the target must be a placeholder of the group.  Every quote of
the placeholder is reassigned to the caller's person and tagged with
`sourcePlaceholderId`, the placeholder is deleted, and the claim is recorded
on the membership. -/
def claimPlaceholder (s : GroupState) (actorId placeholderId : String) :
    Except String GroupState :=
  if placeholderId = "" then Except.error "Group and placeholder are required."
  else
    match s.memberships.find? (fun m => m.userId = actorId) with
    | none => Except.error "Membership required."
    | some m =>
      if m.personId = "" then Except.error "Missing member profile for claim."
      else if m.claimedPlaceholderId ≠ "" then
        Except.error "You have already claimed a placeholder."
      else
        match s.people.find? (fun p => p.id = placeholderId) with
        | none => Except.error "Document not found."
        | some ph =>
          if ¬ ph.isPlaceholder then Except.error "That placeholder cannot be claimed."
          else
            Except.ok
              { s with
                quotes := s.quotes.map (fun q =>
                  if q.personId = placeholderId then
                    { q with personId := m.personId, sourcePlaceholderId := placeholderId }
                  else q),
                people := s.people.filter (fun p => p.id ≠ placeholderId),
                memberships := s.memberships.map (fun mm =>
                  if mm.id = m.id then
                    { mm with claimedPlaceholderId := placeholderId,
                              claimedPlaceholderName := ph.name }
                  else mm) }

/-- `unclaimPlaceholder`: requires an existing claim; creates a new
placeholder Person seeded with the previously claimed name, reassigns every
quote tagged with the original `sourcePlaceholderId` to it, and clears the
claim fields on the membership. -/
def unclaimPlaceholder (s : GroupState) (actorId : String) :
    Except String GroupState :=
  match s.memberships.find? (fun m => m.userId = actorId) with
  | none => Except.error "Membership required."
  | some m =>
    if m.personId = "" then Except.error "Missing member profile for unclaim."
    else if m.claimedPlaceholderId = "" then Except.error "No placeholder claimed yet."
    else
      let memberIds := rosterMemberIds s.memberships
      let adminIds := rosterAdminIds s.memberships
      let ph : PersonDoc :=
        ⟨genId s.fresh, jsOr m.claimedPlaceholderName "Placeholder", "", true,
         personPermissions memberIds adminIds true⟩
      Except.ok
        { s with
          people := s.people ++ [ph],
          quotes := s.quotes.map (fun q =>
            if q.sourcePlaceholderId = m.claimedPlaceholderId then
              { q with personId := ph.id }
            else q),
          memberships := s.memberships.map (fun mm =>
            if mm.id = m.id then
              { mm with claimedPlaceholderId := "", claimedPlaceholderName := "" }
            else mm),
          fresh := s.fresh + 1 }

/-- `updateMemberRole`: the target may never be the owner membership;
promotion to admin requires a non-`member` actor, demotion to member requires
the owner, any other requested role is invalid.  On success the role is
written and a full (admin-enforced) reconciliation runs. -/
def updateMemberRole (s : GroupState) (actorId membershipId newRole : String) :
    Except String GroupState :=
  if membershipId = "" ∨ newRole = "" then
    Except.error "Group, membership, and role are required."
  else
    match s.memberships.find? (fun m => m.userId = actorId) with
    | none => Except.error "Membership required."
    | some actorM =>
      match s.memberships.find? (fun m => m.id = membershipId) with
      | none => Except.error "Document not found."
      | some target =>
        if target.role = "owner" then Except.error "Use transfer ownership instead."
        else if newRole = "admin" then
          if actorM.role = "member" then Except.error "Admin permissions required."
          else
            (syncGroupPermissionsInternal true actorId
              { s with memberships := s.memberships.map (fun m =>
                  if m.id = membershipId then { m with role := newRole } else m) }).map
              (fun r => r.1)
        else if newRole = "member" then
          if actorM.role ≠ "owner" then Except.error "Only the owner can remove admins."
          else
            (syncGroupPermissionsInternal true actorId
              { s with memberships := s.memberships.map (fun m =>
                  if m.id = membershipId then { m with role := newRole } else m) }).map
              (fun r => r.1)
        else Except.error "Invalid role."

/-- `transferOwnership`: only the current owner may invoke; both memberships
must belong to the group (checked only via `groupId`); sets `Group.ownerId`,
demotes the `currentOwner` argument to admin, promotes the `nextOwner`
argument to owner, then reconciles. -/
def transferOwnership (s : GroupState) (actorId curId nextId : String) :
    Except String GroupState :=
  if curId = "" ∨ nextId = "" then Except.error "Group and memberships are required."
  else
    match s.memberships.find? (fun m => m.userId = actorId) with
    | none => Except.error "Owner permissions required."
    | some actorM =>
      if actorM.role ≠ "owner" then Except.error "Owner permissions required."
      else
        match s.memberships.find? (fun m => m.id = curId) with
        | none => Except.error "Document not found."
        | some cur =>
          match s.memberships.find? (fun m => m.id = nextId) with
          | none => Except.error "Document not found."
          | some next =>
            let mems1 := s.memberships.map (fun m =>
              if m.id = cur.id then { m with role := "admin" } else m)
            let mems2 := mems1.map (fun m =>
              if m.id = next.id then { m with role := "owner" } else m)
            (syncGroupPermissionsInternal true actorId
              { s with ownerId := next.userId, memberships := mems2 }).map
              (fun r => r.1)

/-- The person-handling phase of `removeMember`: when the given person exists
and some quote references it, convert it to an orphaned placeholder
(empty `userId`, `isPlaceholder = true`); when no quote references it, delete
it outright; a missing person is skipped silently. -/
def personCleanup (s : GroupState) (pid : String) : GroupState :=
  if pid = "" then s
  else
    match s.people.find? (fun p => p.id = pid) with
    | none => s
    | some _ =>
      if s.quotes.any (fun q => q.personId == pid) then
        { s with people := s.people.map (fun p =>
            if p.id = pid then { p with userId := "", isPlaceholder := true } else p) }
      else
        { s with people := s.people.filter (fun p => p.id ≠ pid) }

/-- `removeMember`: a non-admin actor whose request names another user is
silently redirected to their own membership (`target = actorMembership`);
self-leave is rejected for the owner; removing another member requires admin,
removing another admin requires the owner.  The person-handling phase runs on
the (possibly redirected) target's `personId`, but the membership document
deleted is the one named by the request's `membershipId`.  Reconciliation
enforces the admin check only for non-self removals. -/
def removeMember (s : GroupState) (actorId membershipId : String) :
    Except String GroupState :=
  if membershipId = "" then Except.error "Group and membership are required."
  else
    match s.memberships.find? (fun m => m.userId = actorId) with
    | none => Except.error "Membership required."
    | some actorM =>
      match s.memberships.find? (fun m => m.id = membershipId) with
      | none => Except.error "Document not found."
      | some target0 =>
        let actorIsAdmin := isAdminRole actorM.role
        let target := if ¬ actorIsAdmin ∧ target0.userId ≠ actorM.userId then actorM else target0
        let isSelf := actorM.userId = target.userId
        let check : Except String Unit :=
          if isSelf then
            if target.role = "owner" then
              Except.error "Transfer ownership before leaving the group."
            else Except.ok ()
          else
            if ¬ isAdminRole actorM.role then Except.error "Admin permissions required."
            else if target.role = "owner" then
              Except.error "Transfer ownership before removing the owner."
            else if target.role = "admin" ∧ actorM.role ≠ "owner" then
              Except.error "Only the owner can remove another admin."
            else Except.ok ()
        match check with
        | Except.error e => Except.error e
        | Except.ok _ =>
          let s1 : GroupState := personCleanup s target.personId
          let s2 : GroupState :=
            { s1 with memberships := s1.memberships.filter (fun m => m.id ≠ membershipId) }
          (syncGroupPermissionsInternal (!decide isSelf) actorId s2).map (fun r => r.1)

/-- Number of memberships with role `owner` in a state. -/
def ownerCount (s : GroupState) : Nat :=
  (s.memberships.filter (fun m => m.role = "owner")).length

/-- A role-change or ownership-transfer request, the operations quantified
over by the single-owner invariant. -/
inductive LifecycleOp
  | roleChange (actorId membershipId newRole : String)
  | transfer (actorId curId nextId : String)
deriving DecidableEq, Repr

/-- Dispatch one lifecycle operation. -/
def applyOp (s : GroupState) : LifecycleOp → Except String GroupState
  | LifecycleOp.roleChange a mid r => updateMemberRole s a mid r
  | LifecycleOp.transfer a c n => transferOwnership s a c n

/-- Run a sequence of lifecycle operations, stopping at the first failure. -/
def applyOps (s : GroupState) : List LifecycleOp → Except String GroupState
  | [] => Except.ok s
  | op :: ops =>
    match applyOp s op with
    | Except.error e => Except.error e
    | Except.ok s' => applyOps s' ops

/-- An operation is proper when a `transfer` names the group's actual current
owner membership as `currentOwnerMembershipId` (role changes always are). -/
def properOp (s : GroupState) : LifecycleOp → Bool
  | LifecycleOp.roleChange _ _ _ => true
  | LifecycleOp.transfer _ curId _ =>
    match s.memberships.find? (fun m => m.id = curId) with
    | some m => m.role == "owner"
    | none => true

/-- Every operation of the sequence is proper in the state it executes in. -/
def chainProper (s : GroupState) : List LifecycleOp → Bool
  | [] => true
  | op :: ops =>
    properOp s op &&
      (match applyOp s op with
       | Except.error _ => true
       | Except.ok s' => chainProper s' ops)

/-- All attributes of a membership document except its ACL. -/
def stripMembership (m : MembershipDoc) :
    String × String × String × String × String × String × String :=
  (m.id, m.userId, m.role, m.displayName, m.personId,
   m.claimedPlaceholderId, m.claimedPlaceholderName)

/-- All attributes of a person document except its ACL. -/
def stripPerson (p : PersonDoc) : String × String × String × Bool :=
  (p.id, p.name, p.userId, p.isPlaceholder)

/-- All attributes of a quote document except its ACL. -/
def stripQuote (q : QuoteDoc) : String × String × String × String :=
  (q.id, q.personId, q.text, q.sourcePlaceholderId)

/-- All attributes of an invite document except its ACL. -/
def stripInvite (i : InviteDoc) : String × String × String :=
  (i.id, i.code, i.name)

/-- Example group for the idempotence witness: an owner, a plain member, a
person, a quote and an invite, all with stale (empty) ACLs. -/
def exC1 : GroupState :=
  { groupName := "G", ownerId := "u1", groupPerms := [],
    memberships :=
      [⟨"m1", "u1", "owner", "Alice", "p1", "", "", []⟩,
       ⟨"m2", "u2", "member", "Bob", "p2", "", "", []⟩],
    people :=
      [⟨"p1", "Alice", "u1", false, []⟩,
       ⟨"p2", "Bob", "u2", false, []⟩],
    quotes := [⟨"q1", "p1", "hello", "", []⟩],
    invites := [⟨"i1", "ABCD2345", "General", []⟩],
    fresh := 0 }

/-- Default person used when indexing people lists in concrete statements. -/
def defaultPerson : PersonDoc :=
  ⟨"", "", "", false, []⟩

/-- Group with an owner and a plain member whose only Person document is the
member's non-placeholder profile; used to test the Person ACL policy. -/
def exC2 : GroupState :=
  { groupName := "G", ownerId := "u1", groupPerms := [],
    memberships :=
      [⟨"m1", "u1", "owner", "Alice", "p1", "", "", []⟩,
       ⟨"m2", "u2", "member", "Bob", "p2", "", "", []⟩],
    people := [⟨"p2", "Bob", "u2", false, []⟩],
    quotes := [], invites := [], fresh := 0 }

/-- Group with an owner, a plain member, a placeholder Person and a
non-placeholder Person; used to witness the amended Person ACL policy. -/
def exC2w : GroupState :=
  { groupName := "G", ownerId := "u1", groupPerms := [],
    memberships :=
      [⟨"m1", "u1", "owner", "Alice", "p1", "", "", []⟩,
       ⟨"m2", "u2", "member", "Bob", "p2", "", "", []⟩],
    people :=
      [⟨"p9", "Grandpa", "", true, []⟩,
       ⟨"p2", "Bob", "u2", false, []⟩],
    quotes := [], invites := [], fresh := 0 }

/-- Single-owner group with an admin and a member, used to refute the
unrestricted single-owner claim. -/
def exC3 : GroupState :=
  { groupName := "G", ownerId := "u1", groupPerms := [],
    memberships :=
      [⟨"m1", "u1", "owner", "Alice", "p1", "", "", []⟩,
       ⟨"m2", "u2", "admin", "Bob", "p2", "", "", []⟩,
       ⟨"m3", "u3", "member", "Carol", "p3", "", "", []⟩],
    people := [], quotes := [], invites := [], fresh := 0 }

/-- Single-owner group used to witness the amended single-owner invariant. -/
def exC3w : GroupState :=
  { groupName := "G", ownerId := "u1", groupPerms := [],
    memberships :=
      [⟨"m1", "u1", "owner", "Alice", "p1", "", "", []⟩,
       ⟨"m2", "u2", "admin", "Bob", "p2", "", "", []⟩,
       ⟨"m3", "u3", "member", "Carol", "p3", "", "", []⟩],
    people := [], quotes := [], invites := [], fresh := 0 }

/-- Group with owner u1, members u2 and u3; u3's person authored the only
quote, u2's person authored none.  The failing input for removeMember. -/
def exC4 : GroupState :=
  { groupName := "G", ownerId := "u1", groupPerms := [],
    memberships :=
      [⟨"m1", "u1", "owner", "Alice", "p1", "", "", []⟩,
       ⟨"m2", "u2", "member", "Bob", "p2", "", "", []⟩,
       ⟨"m3", "u3", "member", "Carol", "p3", "", "", []⟩],
    people :=
      [⟨"p1", "Alice", "u1", false, []⟩,
       ⟨"p2", "Bob", "u2", false, []⟩,
       ⟨"p3", "Carol", "u3", false, []⟩],
    quotes := [⟨"q1", "p3", "hi", "", []⟩],
    invites := [], fresh := 0 }

/-- Same shape as `exC4`; used to refute the removal/person-conversion claim
through the silent-redirect path. -/
def exC8 : GroupState :=
  { groupName := "G", ownerId := "u1", groupPerms := [],
    memberships :=
      [⟨"m1", "u1", "owner", "Alice", "p1", "", "", []⟩,
       ⟨"m2", "u2", "member", "Bob", "p2", "", "", []⟩,
       ⟨"m3", "u3", "member", "Carol", "p3", "", "", []⟩],
    people :=
      [⟨"p1", "Alice", "u1", false, []⟩,
       ⟨"p2", "Bob", "u2", false, []⟩,
       ⟨"p3", "Carol", "u3", false, []⟩],
    quotes := [⟨"q1", "p3", "hi", "", []⟩],
    invites := [], fresh := 0 }

/-- Same group, used to witness the amended removal claim with the owner as
actor (no redirect). -/
def exC8w : GroupState :=
  { groupName := "G", ownerId := "u1", groupPerms := [],
    memberships :=
      [⟨"m1", "u1", "owner", "Alice", "p1", "", "", []⟩,
       ⟨"m2", "u2", "member", "Bob", "p2", "", "", []⟩,
       ⟨"m3", "u3", "member", "Carol", "p3", "", "", []⟩],
    people :=
      [⟨"p1", "Alice", "u1", false, []⟩,
       ⟨"p2", "Bob", "u2", false, []⟩,
       ⟨"p3", "Carol", "u3", false, []⟩],
    quotes := [⟨"q1", "p3", "hi", "", []⟩],
    invites := [], fresh := 0 }

/-- Group with owner u1, admin u2 and member u3, used to witness the role
change authorization. -/
def exC7 : GroupState :=
  { groupName := "G", ownerId := "u1", groupPerms := [],
    memberships :=
      [⟨"m1", "u1", "owner", "Alice", "p1", "", "", []⟩,
       ⟨"m2", "u2", "admin", "Bob", "p2", "", "", []⟩,
       ⟨"m3", "u3", "member", "Carol", "p3", "", "", []⟩],
    people := [], quotes := [], invites := [], fresh := 0 }

/-- Group with an owner and one invite, used to witness join-by-code. -/
def exC9 : GroupState :=
  { groupName := "G", ownerId := "u1", groupPerms := [],
    memberships := [⟨"m1", "u1", "owner", "Alice", "p1", "", "", []⟩],
    people := [⟨"p1", "Alice", "u1", false, []⟩],
    quotes := [],
    invites := [⟨"i1", "ABC23XYZ", "General", []⟩],
    fresh := 0 }

/-- Group with a placeholder "Grandpa" holding two quotes, used to witness
the claim/unclaim round trip. -/
def exC5 : GroupState :=
  { groupName := "G", ownerId := "u1", groupPerms := [],
    memberships :=
      [⟨"m1", "u1", "owner", "Alice", "p1", "", "", []⟩,
       ⟨"m2", "u2", "member", "Bob", "p2", "", "", []⟩],
    people :=
      [⟨"p1", "Alice", "u1", false, []⟩,
       ⟨"p2", "Bob", "u2", false, []⟩,
       ⟨"p9", "Grandpa", "", true, []⟩],
    quotes :=
      [⟨"q1", "p9", "first", "", []⟩,
       ⟨"q2", "p9", "second", "", []⟩,
       ⟨"q3", "p1", "third", "", []⟩],
    invites := [], fresh := 0 }

/-- Group with stale ACLs on every document kind, used to witness the
fields-untouched frame property of reconciliation. -/
def exC10 : GroupState :=
  { groupName := "G", ownerId := "u1", groupPerms := [],
    memberships :=
      [⟨"m1", "u1", "owner", "Alice", "p1", "", "", []⟩,
       ⟨"m2", "u2", "member", "Bob", "p2", "", "", []⟩],
    people :=
      [⟨"p2", "Bob", "u2", false, []⟩,
       ⟨"p9", "Grandpa", "", true, []⟩],
    quotes := [⟨"q1", "p9", "hi", "", []⟩],
    invites := [⟨"i1", "ABCD2345", "General", []⟩],
    fresh := 0 }

/-- Group with an empty-named placeholder p9 holding one quote (such a
placeholder is reachable: a whitespace display name trims to "" on join and a
later removal converts that quote-bearing Person into a placeholder with its
name untouched); refutes the unqualified round-trip claim. -/
def exC5c : GroupState :=
  { groupName := "G", ownerId := "u1", groupPerms := [],
    memberships :=
      [⟨"m1", "u1", "owner", "Alice", "p1", "", "", []⟩,
       ⟨"m2", "u2", "member", "Bob", "p2", "", "", []⟩],
    people :=
      [⟨"p1", "Alice", "u1", false, []⟩,
       ⟨"p2", "Bob", "u2", false, []⟩,
       ⟨"p9", "", "", true, []⟩],
    quotes := [⟨"q1", "p9", "first", "", []⟩],
    invites := [], fresh := 0 }

deriving instance DecidableEq for Except

/-- Membership in the deduplication worker. -/
theorem mem_dedupFirstAux (x : String) (l : List String) :
    ∀ seen, x ∈ dedupFirstAux seen l ↔ x ∈ l ∧ x ∉ seen := by
  induction l with
  | nil => intro seen; simp [dedupFirstAux]
  | cons y ys ih =>
    intro seen
    by_cases hy : y ∈ seen
    · rw [show dedupFirstAux seen (y :: ys) = dedupFirstAux seen ys by
        simp [dedupFirstAux, hy]]
      rw [ih seen]
      simp only [List.mem_cons]
      constructor
      · rintro ⟨h1, h2⟩
        exact ⟨Or.inr h1, h2⟩
      · rintro ⟨h1, h2⟩
        cases h1 with
        | inl heq => exact absurd (heq ▸ hy) h2
        | inr h => exact ⟨h, h2⟩
    · rw [show dedupFirstAux seen (y :: ys) = y :: dedupFirstAux (y :: seen) ys by
        simp [dedupFirstAux, hy]]
      simp only [List.mem_cons, ih (y :: seen)]
      constructor
      · rintro (heq | ⟨h1, h2⟩)
        · exact ⟨Or.inl heq, heq ▸ hy⟩
        · exact ⟨Or.inr h1, fun hs => h2 (Or.inr hs)⟩
      · rintro ⟨h1, h2⟩
        cases h1 with
        | inl heq => exact Or.inl heq
        | inr h =>
          by_cases hxy : x = y
          · exact Or.inl hxy
          · exact Or.inr ⟨h, by simp [hxy, h2]⟩

/-- Membership is invariant under first-occurrence deduplication. -/
theorem mem_dedupFirst (x : String) (l : List String) : x ∈ dedupFirst l ↔ x ∈ l := by
  unfold dedupFirst
  rw [mem_dedupFirstAux]
  simp

/-- Membership in `unique`: present in the input and not the empty string. -/
theorem mem_unique (x : String) (l : List String) : x ∈ unique l ↔ x ∈ l ∧ x ≠ "" := by
  unfold unique
  rw [mem_dedupFirst]
  simp [List.mem_filter]

/-- `permissionsEqual` is exactly set equality of the two ACL lists. -/
theorem permissionsEqual_iff (a b : List Perm) :
    permissionsEqual a b = true ↔ ∀ p : Perm, p ∈ a ↔ p ∈ b := by
  simp only [permissionsEqual, Bool.and_eq_true, List.all_eq_true, decide_eq_true_eq]
  constructor
  · rintro ⟨h1, h2⟩ p
    exact ⟨fun hp => h1 p hp, fun hp => h2 p hp⟩
  · intro h
    exact ⟨fun p hp => (h p).1 hp, fun p hp => (h p).2 hp⟩

/-- `permissionsEqual` is reflexive. -/
theorem permissionsEqual_refl (a : List Perm) : permissionsEqual a a = true := by
  rw [permissionsEqual_iff]
  intro p
  rfl

/-- After a conditional write the stored ACL is set-equal to the desired one. -/
theorem updateDoc_fst_eqv (c d : List Perm) :
    permissionsEqual (updateDoc c d).1 d = true := by
  unfold updateDoc
  by_cases h : permissionsEqual c d = true
  · simp only [h, if_true]
  · simp only [h, if_false]
    exact permissionsEqual_refl d

/-- A document whose ACL already matches is not written. -/
theorem updateDoc_stable (c d : List Perm) (h : permissionsEqual c d = true) :
    updateDoc c d = (c, 0) := by
  simp [updateDoc, h]

/-- `find?` commutes with a map that does not change the tested predicate. -/
theorem find?_map_pres {α : Type} (f : α → α) (p : α → Bool)
    (h : ∀ a, p (f a) = p a) (l : List α) :
    (l.map f).find? p = (l.find? p).map f := by
  induction l with
  | nil => rfl
  | cons x xs ih =>
    simp only [List.map_cons]
    cases hx : p x with
    | true =>
      rw [List.find?_cons_of_pos _ (by rw [h, hx]), List.find?_cons_of_pos _ hx]
      rfl
    | false =>
      rw [List.find?_cons_of_neg _ (by rw [h, hx]; simp), List.find?_cons_of_neg _ (by simp [hx])]
      exact ih

/-- `memberIds` only depends on the `userId` fields. -/
theorem rosterMemberIds_map (f : MembershipDoc → MembershipDoc)
    (hu : ∀ m, (f m).userId = m.userId) (ms : List MembershipDoc) :
    rosterMemberIds (ms.map f) = rosterMemberIds ms := by
  unfold rosterMemberIds
  rw [List.map_map]
  exact List.map_congr_left (fun m _ => hu m)

/-- `adminIds` only depends on the `userId` and `role` fields. -/
theorem rosterAdminIds_map (f : MembershipDoc → MembershipDoc)
    (hu : ∀ m, (f m).userId = m.userId) (hr : ∀ m, (f m).role = m.role)
    (ms : List MembershipDoc) :
    rosterAdminIds (ms.map f) = rosterAdminIds ms := by
  induction ms with
  | nil => rfl
  | cons x xs ih =>
    unfold rosterAdminIds at ih ⊢
    simp only [List.map_cons, List.filter_cons, hr x]
    by_cases hx : x.role = "member"
    · rw [if_neg (by simp [hx]), if_neg (by simp [hx])]
      exact ih
    · rw [if_pos (by simp [hx]), if_pos (by simp [hx])]
      simp only [List.map_cons, hu x]
      exact congrArg (fun l => x.userId :: l) ih

/-- `ownerId` only depends on the `userId` and `role` fields. -/
theorem rosterOwnerId_map (f : MembershipDoc → MembershipDoc)
    (hu : ∀ m, (f m).userId = m.userId) (hr : ∀ m, (f m).role = m.role)
    (ms : List MembershipDoc) :
    rosterOwnerId (ms.map f) = rosterOwnerId ms := by
  unfold rosterOwnerId
  rw [find?_map_pres f _ (fun a => by simp [hr a]), rosterAdminIds_map f hu hr]
  cases ms.find? (fun m => m.role = "owner") with
  | none => rfl
  | some m => simp [hu m]

/-- The membership loop preserves `memberIds`. -/
theorem rosterMemberIds_sync (mIds aIds : List String) (ms : List MembershipDoc) :
    rosterMemberIds (syncMemberships mIds aIds ms).1 = rosterMemberIds ms := by
  show rosterMemberIds (ms.map (fun m =>
    { m with perms := (updateDoc m.perms (membershipPermissions mIds aIds m.userId)).1 })) =
      rosterMemberIds ms
  exact rosterMemberIds_map (fun m =>
    { m with perms := (updateDoc m.perms (membershipPermissions mIds aIds m.userId)).1 })
    (fun _ => rfl) ms

/-- The membership loop preserves `adminIds`. -/
theorem rosterAdminIds_sync (mIds aIds : List String) (ms : List MembershipDoc) :
    rosterAdminIds (syncMemberships mIds aIds ms).1 = rosterAdminIds ms := by
  show rosterAdminIds (ms.map (fun m =>
    { m with perms := (updateDoc m.perms (membershipPermissions mIds aIds m.userId)).1 })) =
      rosterAdminIds ms
  exact rosterAdminIds_map (fun m =>
    { m with perms := (updateDoc m.perms (membershipPermissions mIds aIds m.userId)).1 })
    (fun _ => rfl) (fun _ => rfl) ms

/-- The membership loop preserves the derived `ownerId`. -/
theorem rosterOwnerId_sync (mIds aIds : List String) (ms : List MembershipDoc) :
    rosterOwnerId (syncMemberships mIds aIds ms).1 = rosterOwnerId ms := by
  show rosterOwnerId (ms.map (fun m =>
    { m with perms := (updateDoc m.perms (membershipPermissions mIds aIds m.userId)).1 })) =
      rosterOwnerId ms
  exact rosterOwnerId_map (fun m =>
    { m with perms := (updateDoc m.perms (membershipPermissions mIds aIds m.userId)).1 })
    (fun _ => rfl) (fun _ => rfl) ms

/-- The membership loop preserves the desired group ACL. -/
theorem desiredGroupPerms_sync (mIds aIds : List String) (ms : List MembershipDoc) :
    desiredGroupPerms (syncMemberships mIds aIds ms).1 = desiredGroupPerms ms := by
  unfold desiredGroupPerms
  rw [rosterMemberIds_sync, rosterAdminIds_sync, rosterOwnerId_sync]

/-- A state whose ACLs all already match the policy is a fixpoint of the
reconciler: it is returned unchanged with zero writes. -/
theorem syncPure_fixpoint (s : GroupState)
    (hg : permissionsEqual s.groupPerms (desiredGroupPerms s.memberships) = true)
    (hM : ∀ m ∈ s.memberships, permissionsEqual m.perms
      (membershipPermissions (rosterMemberIds s.memberships)
        (rosterAdminIds s.memberships) m.userId) = true)
    (hP : ∀ p ∈ s.people, permissionsEqual p.perms
      (personPermissions (rosterMemberIds s.memberships)
        (rosterAdminIds s.memberships) p.isPlaceholder) = true)
    (hQ : ∀ q ∈ s.quotes, permissionsEqual q.perms
      (quotePermissions (rosterMemberIds s.memberships)
        (rosterAdminIds s.memberships)) = true)
    (hI : ∀ i ∈ s.invites, permissionsEqual i.perms
      (invitePermissions (rosterAdminIds s.memberships)) = true) :
    syncPure s = (s, 0) := by
  obtain ⟨gn, oid, gp, ms, ps, qs, vs, fr⟩ := s
  dsimp only at hg hM hP hQ hI
  have h1 : updateDoc gp (desiredGroupPerms ms) = (gp, 0) := updateDoc_stable _ _ hg
  have h2 : (syncMemberships (rosterMemberIds ms) (rosterAdminIds ms) ms).1 = ms := by
    refine (List.map_congr_left ?_).trans (List.map_id ms)
    intro m hm
    show { m with perms := (updateDoc m.perms _).1 } = m
    rw [updateDoc_stable _ _ (hM m hm)]
  have h2s : (syncMemberships (rosterMemberIds ms) (rosterAdminIds ms) ms).2 = 0 := by
    apply List.sum_eq_zero
    intro x hx
    obtain ⟨m, hm, rfl⟩ := List.mem_map.1 hx
    rw [updateDoc_stable _ _ (hM m hm)]
  have h3 : (syncPeople (rosterMemberIds ms) (rosterAdminIds ms) ps).1 = ps := by
    refine (List.map_congr_left ?_).trans (List.map_id ps)
    intro p hp
    show { p with perms := (updateDoc p.perms _).1 } = p
    rw [updateDoc_stable _ _ (hP p hp)]
  have h3s : (syncPeople (rosterMemberIds ms) (rosterAdminIds ms) ps).2 = 0 := by
    apply List.sum_eq_zero
    intro x hx
    obtain ⟨p, hp, rfl⟩ := List.mem_map.1 hx
    rw [updateDoc_stable _ _ (hP p hp)]
  have h4 : (syncQuotes (rosterMemberIds ms) (rosterAdminIds ms) qs).1 = qs := by
    refine (List.map_congr_left ?_).trans (List.map_id qs)
    intro q hq
    show { q with perms := (updateDoc q.perms _).1 } = q
    rw [updateDoc_stable _ _ (hQ q hq)]
  have h4s : (syncQuotes (rosterMemberIds ms) (rosterAdminIds ms) qs).2 = 0 := by
    apply List.sum_eq_zero
    intro x hx
    obtain ⟨q, hq, rfl⟩ := List.mem_map.1 hx
    rw [updateDoc_stable _ _ (hQ q hq)]
  have h5 : (syncInvites (rosterAdminIds ms) vs).1 = vs := by
    refine (List.map_congr_left ?_).trans (List.map_id vs)
    intro i hi
    show { i with perms := (updateDoc i.perms _).1 } = i
    rw [updateDoc_stable _ _ (hI i hi)]
  have h5s : (syncInvites (rosterAdminIds ms) vs).2 = 0 := by
    apply List.sum_eq_zero
    intro x hx
    obtain ⟨i, hi, rfl⟩ := List.mem_map.1 hx
    rw [updateDoc_stable _ _ (hI i hi)]
  show (({ groupName := gn, ownerId := oid,
           groupPerms := (updateDoc gp (desiredGroupPerms ms)).1,
           memberships := (syncMemberships (rosterMemberIds ms) (rosterAdminIds ms) ms).1,
           people := (syncPeople (rosterMemberIds ms) (rosterAdminIds ms) ps).1,
           quotes := (syncQuotes (rosterMemberIds ms) (rosterAdminIds ms) qs).1,
           invites := (syncInvites (rosterAdminIds ms) vs).1,
           fresh := fr } : GroupState),
        (updateDoc gp (desiredGroupPerms ms)).2 +
          (syncMemberships (rosterMemberIds ms) (rosterAdminIds ms) ms).2 +
          (syncPeople (rosterMemberIds ms) (rosterAdminIds ms) ps).2 +
          (syncQuotes (rosterMemberIds ms) (rosterAdminIds ms) qs).2 +
          (syncInvites (rosterAdminIds ms) vs).2) =
      ((⟨gn, oid, gp, ms, ps, qs, vs, fr⟩ : GroupState), 0)
  rw [h1, h2, h2s, h3, h3s, h4, h4s, h5, h5s]

/-- After reconciliation the group ACL matches the desired one (as a set). -/
theorem syncPure_groupPerms_eqv (s : GroupState) :
    permissionsEqual (syncPure s).1.groupPerms
      (desiredGroupPerms (syncPure s).1.memberships) = true := by
  rw [show (syncPure s).1.memberships =
      (syncMemberships (rosterMemberIds s.memberships) (rosterAdminIds s.memberships)
        s.memberships).1 from rfl,
    desiredGroupPerms_sync]
  exact updateDoc_fst_eqv _ _

/-- After reconciliation every membership ACL matches the desired one. -/
theorem syncPure_memberships_eqv (s : GroupState) :
    ∀ m ∈ (syncPure s).1.memberships, permissionsEqual m.perms
      (membershipPermissions (rosterMemberIds (syncPure s).1.memberships)
        (rosterAdminIds (syncPure s).1.memberships) m.userId) = true := by
  intro m hm
  rw [show (syncPure s).1.memberships =
      (syncMemberships (rosterMemberIds s.memberships) (rosterAdminIds s.memberships)
        s.memberships).1 from rfl] at hm ⊢
  rw [rosterMemberIds_sync, rosterAdminIds_sync]
  obtain ⟨m0, _, rfl⟩ := List.mem_map.1 hm
  exact updateDoc_fst_eqv _ _

/-- After reconciliation every person ACL matches the desired one. -/
theorem syncPure_people_eqv (s : GroupState) :
    ∀ p ∈ (syncPure s).1.people, permissionsEqual p.perms
      (personPermissions (rosterMemberIds (syncPure s).1.memberships)
        (rosterAdminIds (syncPure s).1.memberships) p.isPlaceholder) = true := by
  intro p hp
  rw [show (syncPure s).1.memberships =
      (syncMemberships (rosterMemberIds s.memberships) (rosterAdminIds s.memberships)
        s.memberships).1 from rfl]
  rw [rosterMemberIds_sync, rosterAdminIds_sync]
  rw [show (syncPure s).1.people =
      (syncPeople (rosterMemberIds s.memberships) (rosterAdminIds s.memberships)
        s.people).1 from rfl] at hp
  obtain ⟨p0, _, rfl⟩ := List.mem_map.1 hp
  exact updateDoc_fst_eqv _ _

/-- After reconciliation every quote ACL matches the desired one. -/
theorem syncPure_quotes_eqv (s : GroupState) :
    ∀ q ∈ (syncPure s).1.quotes, permissionsEqual q.perms
      (quotePermissions (rosterMemberIds (syncPure s).1.memberships)
        (rosterAdminIds (syncPure s).1.memberships)) = true := by
  intro q hq
  rw [show (syncPure s).1.memberships =
      (syncMemberships (rosterMemberIds s.memberships) (rosterAdminIds s.memberships)
        s.memberships).1 from rfl]
  rw [rosterMemberIds_sync, rosterAdminIds_sync]
  rw [show (syncPure s).1.quotes =
      (syncQuotes (rosterMemberIds s.memberships) (rosterAdminIds s.memberships)
        s.quotes).1 from rfl] at hq
  obtain ⟨q0, _, rfl⟩ := List.mem_map.1 hq
  exact updateDoc_fst_eqv _ _

/-- After reconciliation every invite ACL matches the desired one. -/
theorem syncPure_invites_eqv (s : GroupState) :
    ∀ i ∈ (syncPure s).1.invites, permissionsEqual i.perms
      (invitePermissions (rosterAdminIds (syncPure s).1.memberships)) = true := by
  intro i hi
  rw [show (syncPure s).1.memberships =
      (syncMemberships (rosterMemberIds s.memberships) (rosterAdminIds s.memberships)
        s.memberships).1 from rfl]
  rw [rosterAdminIds_sync]
  rw [show (syncPure s).1.invites =
      (syncInvites (rosterAdminIds s.memberships) s.invites).1 from rfl] at hi
  obtain ⟨i0, _, rfl⟩ := List.mem_map.1 hi
  exact updateDoc_fst_eqv _ _

/-- One reconciliation reaches the fixpoint: a second one is the identity
with zero writes. -/
theorem syncPure_idem (s : GroupState) :
    syncPure ((syncPure s).1) = ((syncPure s).1, 0) :=
  syncPure_fixpoint _ (syncPure_groupPerms_eqv s) (syncPure_memberships_eqv s)
    (syncPure_people_eqv s) (syncPure_quotes_eqv s) (syncPure_invites_eqv s)

/-- The enforced reconciler succeeds for an admin or owner actor. -/
theorem syncInternal_ok_of_admin (actorId : String) (s : GroupState) (m : MembershipDoc)
    (hfind : s.memberships.find? (fun mm => mm.userId = actorId) = some m)
    (hrole : isAdminRole m.role = true) :
    syncGroupPermissionsInternal true actorId s = Except.ok (syncPure s) := by
  unfold syncGroupPermissionsInternal
  rw [if_pos rfl, hfind]
  show (if isAdminRole m.role then Except.ok (syncPure s)
        else Except.error "Admin permissions required.") = Except.ok (syncPure s)
  rw [hrole]
  exact if_pos rfl

/-- Inversion of a successful enforced reconciliation: the actor's membership
exists and is admin or owner, and the result is the pure write phase. -/
theorem syncInternal_true_inv (actorId : String) (s : GroupState) (r : GroupState × Nat)
    (h : syncGroupPermissionsInternal true actorId s = Except.ok r) :
    r = syncPure s ∧ ∃ m, s.memberships.find? (fun mm => mm.userId = actorId) = some m ∧
      isAdminRole m.role = true := by
  unfold syncGroupPermissionsInternal at h
  rw [if_pos rfl] at h
  cases hfind : s.memberships.find? (fun mm => mm.userId = actorId) with
  | none =>
    rw [hfind] at h
    exact absurd h (by simp)
  | some m =>
    rw [hfind] at h
    by_cases hrole : isAdminRole m.role = true
    · refine ⟨?_, m, rfl, hrole⟩
      rw [show (match some m with
            | some mm => if isAdminRole mm.role then Except.ok (syncPure s)
                else (Except.error "Admin permissions required." : Except String (GroupState × Nat))
            | none => Except.error "Admin permissions required.") =
          (if isAdminRole m.role then Except.ok (syncPure s)
            else Except.error "Admin permissions required.") from rfl, hrole, if_pos rfl] at h
      exact (Except.ok.injEq _ _ ▸ h).symm
    · rw [show (match some m with
            | some mm => if isAdminRole mm.role then Except.ok (syncPure s)
                else (Except.error "Admin permissions required." : Except String (GroupState × Nat))
            | none => Except.error "Admin permissions required.") =
          (if isAdminRole m.role then Except.ok (syncPure s)
            else Except.error "Admin permissions required.") from rfl,
        if_neg hrole] at h
      exact absurd h (by simp)

/-- C1: Reconciliation is idempotent.  After one successful call of
`syncGroupPermissions`, every Group, Membership, Person, Quote and Invite
document's ACL equals (as an order-independent set) the policy-derived
desired ACL, so an immediate second call leaves the state unchanged and
performs zero permission-update writes. -/
theorem c1_reconcile_idempotent (actorId : String) (s s' : GroupState) (n : Nat)
    (h : syncGroupPermissions actorId s = Except.ok (s', n)) :
    syncGroupPermissions actorId s' = Except.ok (s', 0) := by
  unfold syncGroupPermissions at h ⊢
  obtain ⟨hr, m, hfind, hrole⟩ := syncInternal_true_inv actorId s (s', n) h
  have hs' : s' = (syncPure s).1 := congrArg Prod.fst hr
  have hfind2 : s'.memberships.find? (fun mm => mm.userId = actorId) =
      some { m with perms := (updateDoc m.perms
        (membershipPermissions (rosterMemberIds s.memberships)
          (rosterAdminIds s.memberships) m.userId)).1 } := by
    rw [hs']
    rw [show (syncPure s).1.memberships = s.memberships.map (fun mm =>
      { mm with perms := (updateDoc mm.perms (membershipPermissions
        (rosterMemberIds s.memberships) (rosterAdminIds s.memberships) mm.userId)).1 }) from rfl]
    rw [find?_map_pres (fun mm : MembershipDoc =>
      { mm with perms := (updateDoc mm.perms (membershipPermissions
        (rosterMemberIds s.memberships) (rosterAdminIds s.memberships) mm.userId)).1 })
      (fun mm : MembershipDoc => decide (mm.userId = actorId)) (fun a => rfl), hfind]
    rfl
  rw [syncInternal_ok_of_admin actorId s' _ hfind2 hrole]
  rw [hs', syncPure_idem]

/-- Witness for C1 at a concrete two-member group with stale ACLs. -/
theorem c1_reconcile_idempotent_witness :
    syncGroupPermissions "u1" (syncPure exC1).1 = Except.ok ((syncPure exC1).1, 0) :=
  c1_reconcile_idempotent "u1" exC1 (syncPure exC1).1 (syncPure exC1).2 (by rfl)

/-- Which users hold `update` on a Person ACL: every (non-empty) member id,
for placeholders and non-placeholders alike. -/
theorem mem_personPermissions_update (mIds aIds : List String) (b : Bool) (u : String) :
    Perm.update (Subject.user u) ∈ personPermissions mIds aIds b ↔ u ∈ mIds ∧ u ≠ "" := by
  simp [personPermissions, buildReadPermissions, buildUpdatePermissions,
    buildDeletePermissions, mem_unique]

/-- Which users hold `delete` on a Person ACL: members for placeholders,
admins for non-placeholders. -/
theorem mem_personPermissions_delete (mIds aIds : List String) (b : Bool) (u : String) :
    Perm.delete (Subject.user u) ∈ personPermissions mIds aIds b ↔
      (u ∈ (if b then mIds else aIds) ∧ u ≠ "") := by
  cases b <;>
    simp [personPermissions, buildReadPermissions, buildUpdatePermissions,
      buildDeletePermissions, mem_unique]

/-- C2 counterexample: after reconciliation, a non-placeholder Person is
update-permitted for the plain member u2, who is not an admin — the code does
not restrict Person update rights to admins. -/
theorem c2_counterexample :
    ((syncPure exC2).1.people.getD 0 defaultPerson).isPlaceholder = false ∧
      Perm.update (Subject.user "u2") ∈
        ((syncPure exC2).1.people.getD 0 defaultPerson).perms ∧
      "u2" ∉ rosterAdminIds exC2.memberships := by
  decide

/-- C2 amended: after reconciliation every Person document — placeholder or
not — is update-permitted for every member; the placeholder flag governs the
delete right instead: placeholders are delete-permitted for all members while
non-placeholder Persons are delete-restricted to admins. -/
theorem c2_person_acl_amended (s : GroupState) (p : PersonDoc)
    (hp : p ∈ (syncPure s).1.people) (uid : String)
    (hm : uid ∈ rosterMemberIds s.memberships) (hne : uid ≠ "") :
    Perm.update (Subject.user uid) ∈ p.perms ∧
      (p.isPlaceholder = true → Perm.delete (Subject.user uid) ∈ p.perms) ∧
      (p.isPlaceholder = false →
        (Perm.delete (Subject.user uid) ∈ p.perms ↔
          uid ∈ rosterAdminIds s.memberships)) := by
  have heqv := syncPure_people_eqv s p hp
  rw [show (syncPure s).1.memberships =
      (syncMemberships (rosterMemberIds s.memberships) (rosterAdminIds s.memberships)
        s.memberships).1 from rfl,
    rosterMemberIds_sync, rosterAdminIds_sync] at heqv
  have hmem := (permissionsEqual_iff _ _).1 heqv
  refine ⟨?_, ?_, ?_⟩
  · rw [hmem, mem_personPermissions_update]
    exact ⟨hm, hne⟩
  · intro hb
    rw [hmem, mem_personPermissions_delete, hb]
    simp [hm, hne]
  · intro hb
    rw [hmem, mem_personPermissions_delete, hb]
    simp [hne]

/-- Witness for the amended C2 at a concrete group: the placeholder Person of
`exC2w` after reconciliation, tested for the plain member u2. -/
theorem c2_person_acl_amended_witness :
    Perm.update (Subject.user "u2") ∈
        ((syncPure exC2w).1.people.getD 0 defaultPerson).perms ∧
      (((syncPure exC2w).1.people.getD 0 defaultPerson).isPlaceholder = true →
        Perm.delete (Subject.user "u2") ∈
          ((syncPure exC2w).1.people.getD 0 defaultPerson).perms) ∧
      (((syncPure exC2w).1.people.getD 0 defaultPerson).isPlaceholder = false →
        (Perm.delete (Subject.user "u2") ∈
            ((syncPure exC2w).1.people.getD 0 defaultPerson).perms ↔
          "u2" ∈ rosterAdminIds exC2w.memberships)) :=
  c2_person_acl_amended exC2w ((syncPure exC2w).1.people.getD 0 defaultPerson)
    (by decide) "u2" (by decide) (by decide)

/-- Two distinct members force length at least two. -/
theorem two_le_length_of_mem_ne {α : Type} (l : List α) (a b : α) (ha : a ∈ l)
    (hb : b ∈ l) (hab : a ≠ b) : 2 ≤ l.length := by
  cases l with
  | nil => cases ha
  | cons x xs =>
    cases xs with
    | nil =>
      simp only [List.mem_singleton] at ha hb
      exact absurd (ha.trans hb.symm) hab
    | cons y ys =>
      simp only [List.length_cons]
      omega

/-- In a roster with exactly one owner, any member with the owner role is that
owner. -/
theorem owner_unique (ms : List MembershipDoc)
    (hone : (ms.filter (fun m => m.role = "owner")).length = 1)
    (cur m : MembershipDoc) (hcur : cur ∈ ms) (hcuro : cur.role = "owner")
    (hm : m ∈ ms) (hmo : m.role = "owner") : m = cur := by
  by_contra hne
  have h1 : m ∈ ms.filter (fun mm => mm.role = "owner") :=
    List.mem_filter.2 ⟨hm, by simp [hmo]⟩
  have h2 : cur ∈ ms.filter (fun mm => mm.role = "owner") :=
    List.mem_filter.2 ⟨hcur, by simp [hcuro]⟩
  have := two_le_length_of_mem_ne _ m cur h1 h2 hne
  omega

/-- Filtering a mapped list where the predicate of the image agrees pointwise
with another predicate on the original. -/
theorem length_filter_map_congr {α : Type} (g : α → α) (p q : α → Bool) (l : List α)
    (h : ∀ a ∈ l, p (g a) = q a) :
    ((l.map g).filter p).length = (l.filter q).length := by
  induction l with
  | nil => rfl
  | cons x xs ih =>
    simp only [List.map_cons, List.filter_cons, h x (List.mem_cons_self x xs)]
    by_cases hx : q x = true
    · rw [if_pos hx, if_pos hx]
      simp only [List.length_cons]
      rw [ih (fun a ha => h a (List.mem_cons_of_mem _ ha))]
    · rw [if_neg hx, if_neg hx]
      exact ih (fun a ha => h a (List.mem_cons_of_mem _ ha))

/-- With unique ids, exactly one roster entry matches a present id. -/
theorem length_filter_id_eq_one (ms : List MembershipDoc) (nid : String)
    (hnodup : (ms.map (fun m => m.id)).Nodup) (next : MembershipDoc)
    (hnext : next ∈ ms) (hid : next.id = nid) :
    (ms.filter (fun m => m.id = nid)).length = 1 := by
  induction ms with
  | nil => cases hnext
  | cons x xs ih =>
    simp only [List.map_cons, List.nodup_cons] at hnodup
    rw [List.filter_cons]
    by_cases hx : x.id = nid
    · rw [if_pos (by simp [hx])]
      have hrest : xs.filter (fun m => decide (m.id = nid)) = [] := by
        rw [List.filter_eq_nil_iff]
        intro m hm
        simp only [decide_eq_true_eq]
        intro heq
        exact hnodup.1 (by
          rw [← hx] at heq
          exact heq ▸ List.mem_map_of_mem (fun mm => mm.id) hm)
      simp [hrest]
    · rw [if_neg (by simp [hx])]
      cases hnext with
      | head => exact absurd hid hx
      | tail _ hmem => exact ih hnodup.2 hmem

/-- Mapping a function that preserves ids preserves the id list. -/
theorem ids_map_pres (f : MembershipDoc → MembershipDoc)
    (h : ∀ m, (f m).id = m.id) (ms : List MembershipDoc) :
    (ms.map f).map (fun m => m.id) = ms.map (fun m => m.id) := by
  rw [List.map_map]
  exact List.map_congr_left (fun m _ => h m)

/-- Reconciliation does not change which memberships exist or their ids. -/
theorem membershipIds_syncPure (s : GroupState) :
    (syncPure s).1.memberships.map (fun m => m.id) =
      s.memberships.map (fun m => m.id) := by
  rw [show (syncPure s).1.memberships = s.memberships.map (fun mm : MembershipDoc =>
    { mm with perms := (updateDoc mm.perms (membershipPermissions
      (rosterMemberIds s.memberships) (rosterAdminIds s.memberships) mm.userId)).1 }) from rfl]
  exact ids_map_pres (fun mm : MembershipDoc =>
    { mm with perms := (updateDoc mm.perms (membershipPermissions
      (rosterMemberIds s.memberships) (rosterAdminIds s.memberships) mm.userId)).1 })
    (fun _ => rfl) s.memberships

/-- Reconciliation does not change any membership role, so the owner count is
unchanged. -/
theorem ownerCount_syncPure (s : GroupState) :
    ownerCount (syncPure s).1 = ownerCount s := by
  unfold ownerCount
  rw [show (syncPure s).1.memberships = s.memberships.map (fun mm : MembershipDoc =>
    { mm with perms := (updateDoc mm.perms (membershipPermissions
      (rosterMemberIds s.memberships) (rosterAdminIds s.memberships) mm.userId)).1 }) from rfl]
  exact length_filter_map_congr (fun mm : MembershipDoc =>
    { mm with perms := (updateDoc mm.perms (membershipPermissions
      (rosterMemberIds s.memberships) (rosterAdminIds s.memberships) mm.userId)).1 })
    (fun m => decide (m.role = "owner")) (fun m => decide (m.role = "owner"))
    s.memberships (fun m _ => rfl)

/-- Inversion of `Except.map` hitting `ok`. -/
theorem exceptMap_ok_inv {ε α β : Type} (f : α → β) (e : Except ε α) (b : β)
    (h : Except.map f e = Except.ok b) : ∃ a, e = Except.ok a ∧ f a = b := by
  cases e with
  | error _ => exact absurd h (by simp [Except.map])
  | ok a =>
    refine ⟨a, rfl, ?_⟩
    simpa [Except.map] using h

/-- Inversion of a successful `updateMemberRole`: the actor and target exist,
the target is not the owner membership, the requested role is `admin` or
`member`, and the result is the reconciled state with the target's role
overwritten. -/
theorem updateMemberRole_ok_inv (s s' : GroupState) (a mid r : String)
    (h : updateMemberRole s a mid r = Except.ok s') :
    ∃ actorM target,
      s.memberships.find? (fun m => m.userId = a) = some actorM ∧
      s.memberships.find? (fun m => m.id = mid) = some target ∧
      ¬ target.role = "owner" ∧
      ((r = "admin" ∧ ¬ actorM.role = "member") ∨
        (r = "member" ∧ actorM.role = "owner")) ∧
      s' = (syncPure { s with memberships := s.memberships.map (fun m =>
        if m.id = mid then { m with role := r } else m) }).1 := by
  unfold updateMemberRole at h
  split at h
  · exact absurd h (by simp)
  · split at h
    · exact absurd h (by simp)
    · rename_i actorM hact
      split at h
      · exact absurd h (by simp)
      · rename_i target htar
        split at h
        · exact absurd h (by simp)
        · rename_i hrole
          split at h
          · rename_i hradmin
            split at h
            · exact absurd h (by simp)
            · rename_i hnm
              obtain ⟨r0, he, hf⟩ := exceptMap_ok_inv _ _ _ h
              obtain ⟨hr0, -⟩ := syncInternal_true_inv _ _ _ he
              refine ⟨actorM, target, hact, htar, hrole, Or.inl ⟨hradmin, hnm⟩, ?_⟩
              rw [← hf, hr0]
          · split at h
            · rename_i hrmember
              split at h
              · exact absurd h (by simp)
              · rename_i hno
                obtain ⟨r0, he, hf⟩ := exceptMap_ok_inv _ _ _ h
                obtain ⟨hr0, -⟩ := syncInternal_true_inv _ _ _ he
                refine ⟨actorM, target, hact, htar, hrole,
                  Or.inr ⟨hrmember, not_not.mp hno⟩, ?_⟩
                rw [← hf, hr0]
            · exact absurd h (by simp)

/-- Inversion of a successful `transferOwnership`: the actor is the owner,
both named memberships exist, and the result is the reconciled state with the
`currentOwner` argument demoted and the `nextOwner` argument promoted. -/
theorem transferOwnership_ok_inv (s s' : GroupState) (a c n : String)
    (h : transferOwnership s a c n = Except.ok s') :
    ∃ actorM cur next,
      s.memberships.find? (fun m => m.userId = a) = some actorM ∧
      actorM.role = "owner" ∧
      s.memberships.find? (fun m => m.id = c) = some cur ∧
      s.memberships.find? (fun m => m.id = n) = some next ∧
      s' = (syncPure { s with
                        ownerId := next.userId,
                        memberships := (s.memberships.map (fun m =>
                          if m.id = cur.id then { m with role := "admin" } else m)).map (fun m =>
                          if m.id = next.id then { m with role := "owner" } else m) }).1 := by
  unfold transferOwnership at h
  split at h
  · exact absurd h (by simp)
  · split at h
    · exact absurd h (by simp)
    · rename_i actorM hact
      split at h
      · exact absurd h (by simp)
      · rename_i hrole
        split at h
        · exact absurd h (by simp)
        · rename_i cur hcur
          split at h
          · exact absurd h (by simp)
          · rename_i next hnext
            obtain ⟨r0, he, hf⟩ := exceptMap_ok_inv _ _ _ h
            obtain ⟨hr0, -⟩ := syncInternal_true_inv _ _ _ he
            refine ⟨actorM, cur, next, hact, not_not.mp hrole, hcur, hnext, ?_⟩
            rw [← hf, hr0]

/-- A successful `updateMemberRole` never changes the number of owners and
keeps the membership id list intact. -/
theorem roleChange_step (s s1 : GroupState) (a mid r : String)
    (hnodup : (s.memberships.map (fun m => m.id)).Nodup)
    (h : updateMemberRole s a mid r = Except.ok s1) :
    ownerCount s1 = ownerCount s ∧
      s1.memberships.map (fun m => m.id) = s.memberships.map (fun m => m.id) := by
  obtain ⟨actorM, target, hact, htar, hrole, hr, hs1⟩ := updateMemberRole_ok_inv s s1 a mid r h
  have htmem : target ∈ s.memberships := List.mem_of_find?_eq_some htar
  have htid : target.id = mid := by simpa using List.find?_some htar
  have hrno : r ≠ "owner" := by
    rcases hr with ⟨h1, -⟩ | ⟨h1, -⟩ <;> simp [h1]
  subst hs1
  constructor
  · rw [ownerCount_syncPure]
    unfold ownerCount
    show ((s.memberships.map (fun m =>
        if m.id = mid then { m with role := r } else m)).filter
      (fun m => m.role = "owner")).length =
      (s.memberships.filter (fun m => m.role = "owner")).length
    apply length_filter_map_congr
    intro m hm
    by_cases hid : m.id = mid
    · have hmt : m = target :=
        List.inj_on_of_nodup_map hnodup hm htmem (by rw [hid, htid])
      rw [if_pos hid, hmt]
      simp [hrno, hrole]
    · rw [if_neg hid]
  · rw [membershipIds_syncPure]
    show ((s.memberships.map (fun m =>
        if m.id = mid then { m with role := r } else m)).map (fun m => m.id)) =
      s.memberships.map (fun m => m.id)
    apply ids_map_pres
    intro m
    by_cases hid : m.id = mid
    · rw [if_pos hid]
    · rw [if_neg hid]

/-- A successful `transferOwnership` whose `currentOwner` argument names the
group's actual owner membership leaves exactly one owner and keeps the
membership id list intact. -/
theorem transfer_step (s s1 : GroupState) (a c n : String)
    (hnodup : (s.memberships.map (fun m => m.id)).Nodup)
    (hone : ownerCount s = 1)
    (hprop : properOp s (LifecycleOp.transfer a c n) = true)
    (h : transferOwnership s a c n = Except.ok s1) :
    ownerCount s1 = 1 ∧
      s1.memberships.map (fun m => m.id) = s.memberships.map (fun m => m.id) := by
  obtain ⟨actorM, cur, next, hact, hao, hcur, hnext, hs1⟩ := transferOwnership_ok_inv s s1 a c n h
  have hcmem : cur ∈ s.memberships := List.mem_of_find?_eq_some hcur
  have hnmem : next ∈ s.memberships := List.mem_of_find?_eq_some hnext
  have hcuro : cur.role = "owner" := by
    have hprop2 : (match s.memberships.find? (fun m => m.id = c) with
        | some m => m.role == "owner"
        | none => true) = true := hprop
    rw [hcur] at hprop2
    simpa using hprop2
  have hone' : (s.memberships.filter (fun m => m.role = "owner")).length = 1 := hone
  subst hs1
  constructor
  · rw [ownerCount_syncPure]
    unfold ownerCount
    show (((s.memberships.map (fun m =>
        if m.id = cur.id then { m with role := "admin" } else m)).map (fun m =>
        if m.id = next.id then { m with role := "owner" } else m)).filter
      (fun m => m.role = "owner")).length = 1
    have hA : (((s.memberships.map (fun m =>
        if m.id = cur.id then { m with role := "admin" } else m)).map (fun m =>
        if m.id = next.id then { m with role := "owner" } else m)).filter
      (fun m => m.role = "owner")).length =
        ((s.memberships.map (fun m =>
          if m.id = cur.id then { m with role := "admin" } else m)).filter
        (fun m => m.id = next.id)).length := by
      apply length_filter_map_congr
      intro mm hmm
      by_cases h2 : mm.id = next.id
      · rw [if_pos h2]
        simp [h2]
      · rw [if_neg h2]
        obtain ⟨m, hm, rfl⟩ := List.mem_map.1 hmm
        by_cases h1 : m.id = cur.id
        · rw [if_pos h1] at h2 ⊢
          simp [h2]
        · rw [if_neg h1] at h2 ⊢
          have hno : m.role ≠ "owner" := fun ho =>
            h1 (congrArg (fun mm => mm.id)
              (owner_unique s.memberships hone' cur m hcmem hcuro hm ho))
          simp [hno, h2]
    rw [hA]
    refine length_filter_id_eq_one
      (s.memberships.map (fun m =>
        if m.id = cur.id then { m with role := "admin" } else m))
      next.id ?_
      ((fun m => if m.id = cur.id then { m with role := "admin" } else m) next) ?_ ?_
    · rw [ids_map_pres (fun m =>
        if m.id = cur.id then { m with role := "admin" } else m)
        (fun m => by by_cases hh : m.id = cur.id <;> simp [hh]) s.memberships]
      exact hnodup
    · exact List.mem_map_of_mem _ hnmem
    · by_cases hh : next.id = cur.id <;> simp [hh]
  · rw [membershipIds_syncPure]
    show (((s.memberships.map (fun m =>
        if m.id = cur.id then { m with role := "admin" } else m)).map (fun m =>
        if m.id = next.id then { m with role := "owner" } else m)).map (fun m => m.id)) =
      s.memberships.map (fun m => m.id)
    rw [ids_map_pres (fun m =>
        if m.id = next.id then { m with role := "owner" } else m)
        (fun m => by by_cases hh : m.id = next.id <;> simp [hh])]
    rw [ids_map_pres (fun m =>
        if m.id = cur.id then { m with role := "admin" } else m)
        (fun m => by by_cases hh : m.id = cur.id <;> simp [hh]) s.memberships]

/-- C3 counterexample: from a single-owner group, one successful
`transferOwnership` call whose `currentOwnerMembershipId` names the admin
membership m2 (not the owner's m1) leaves the group with two owners — the
operation never verifies that the passed membership is the current owner. -/
theorem c3_counterexample :
    ownerCount exC3 = 1 ∧
      (transferOwnership exC3 "u1" "m2" "m3").toOption.map ownerCount = some 2 := by
  decide

/-- C3 amended: starting from a group with unique membership ids and exactly
one owner, any sequence of successful `updateMemberRole` and
`transferOwnership` operations in which every transfer's
`currentOwnerMembershipId` names the actual current owner membership leaves
exactly one owner. -/
theorem c3_single_owner_amended (ops : List LifecycleOp) : ∀ (s s' : GroupState),
    (s.memberships.map (fun m => m.id)).Nodup →
    ownerCount s = 1 →
    chainProper s ops = true →
    applyOps s ops = Except.ok s' →
    ownerCount s' = 1 := by
  induction ops with
  | nil =>
    intro s s' _ hone _ hrun
    simp only [applyOps] at hrun
    obtain rfl : s = s' := by
      injection hrun
    exact hone
  | cons op ops ih =>
    intro s s' hnodup hone hchain hrun
    simp only [applyOps] at hrun
    cases hop : applyOp s op with
    | error e =>
      rw [hop] at hrun
      exact absurd hrun (by simp)
    | ok s1 =>
      rw [hop] at hrun
      have hrun' : applyOps s1 ops = Except.ok s' := hrun
      have hchain2 : (properOp s op && chainProper s1 ops) = true := by
        have h0 : chainProper s (op :: ops) =
            (properOp s op && (match applyOp s op with
              | Except.error _ => true
              | Except.ok s2 => chainProper s2 ops)) := rfl
        rw [h0, hop] at hchain
        exact hchain
      rw [Bool.and_eq_true] at hchain2
      obtain ⟨hprop, hchain'⟩ := hchain2
      have hstep : ownerCount s1 = 1 ∧ s1.memberships.map (fun m => m.id) =
          s.memberships.map (fun m => m.id) := by
        cases op with
        | roleChange a mid r =>
          have hh := roleChange_step s s1 a mid r hnodup hop
          exact ⟨hh.1.trans hone, hh.2⟩
        | transfer a c n =>
          exact transfer_step s s1 a c n hnodup hone hprop hop
      exact ih s1 s' (by rw [hstep.2]; exact hnodup) hstep.1 hchain' hrun'

/-- Witness for the amended C3: promote the member, then transfer ownership
to the admin naming the true owner membership; one owner remains. -/
theorem c3_single_owner_amended_witness :
    ownerCount ((applyOps exC3w [LifecycleOp.roleChange "u1" "m3" "admin",
      LifecycleOp.transfer "u1" "m1" "m2"]).toOption.getD exC3w) = 1 :=
  c3_single_owner_amended
    [LifecycleOp.roleChange "u1" "m3" "admin", LifecycleOp.transfer "u1" "m1" "m2"]
    exC3w
    ((applyOps exC3w [LifecycleOp.roleChange "u1" "m3" "admin",
      LifecycleOp.transfer "u1" "m1" "m2"]).toOption.getD exC3w)
    (by decide) (by decide) (by decide) (by decide)

/-- A successful reconciliation, with or without the admin check, returns the
pure write phase. -/
theorem syncInternal_ok_any (e : Bool) (a : String) (s : GroupState) (r : GroupState × Nat)
    (h : syncGroupPermissionsInternal e a s = Except.ok r) : r = syncPure s := by
  cases e with
  | false =>
    have h' : Except.ok (syncPure s) = Except.ok r := h
    injection h' with h''
    exact h''.symm
  | true => exact (syncInternal_true_inv a s r h).1

/-- C4: the failing input for removeMember's authorization.  The plain member
u2 requests removal of the owner's membership m1; instead of a Forbidden
error the call succeeds: the redirect treats it as u2's self-leave (deleting
u2's quote-less Person p2) while the membership document actually deleted is
the owner's m1, leaving the group with no owner at all. -/
theorem c4_member_removes_owner_membership :
    (removeMember exC4 "u2" "m1").toOption.map (fun st =>
      (st.memberships.map (fun m => m.id), ownerCount st,
        st.people.map (fun p => p.id))) =
      some (["m2", "m3"], 0, ["p1", "p3"]) := by
  decide

/-- The person phase never touches memberships. -/
theorem personCleanup_memberships (s : GroupState) (pid : String) :
    (personCleanup s pid).memberships = s.memberships := by
  unfold personCleanup
  split
  · rfl
  · split
    · rfl
    · split <;> rfl

/-- Inversion of a successful non-redirected `removeMember`: the result is the
reconciliation of the person-cleanup phase with the named membership
removed. -/
theorem removeMember_ok_inv (s s' : GroupState) (a mid : String)
    (actorM target0 : MembershipDoc)
    (hact : s.memberships.find? (fun m => m.userId = a) = some actorM)
    (htar : s.memberships.find? (fun m => m.id = mid) = some target0)
    (hnored : isAdminRole actorM.role = true ∨ target0.userId = actorM.userId)
    (h : removeMember s a mid = Except.ok s') :
    s' = (syncPure { personCleanup s target0.personId with
      memberships := (personCleanup s target0.personId).memberships.filter
        (fun m => m.id ≠ mid) }).1 := by
  unfold removeMember at h
  by_cases h0 : mid = ""
  · rw [if_pos h0] at h
    exact absurd h (by simp)
  rw [if_neg h0] at h
  rw [hact] at h
  dsimp only at h
  rw [htar] at h
  dsimp only at h
  have hcond : ¬(¬ (isAdminRole actorM.role = true) ∧ ¬(target0.userId = actorM.userId)) := by
    rcases hnored with h1 | h1
    · exact fun hc => hc.1 h1
    · exact fun hc => hc.2 h1
  rw [if_neg hcond] at h
  split at h
  · exact absurd h (by simp)
  · obtain ⟨r0, he, hf⟩ := exceptMap_ok_inv _ _ _ h
    rw [← hf, syncInternal_ok_any _ _ _ r0 he]

/-- Every person survives reconciliation with its non-ACL fields intact. -/
theorem syncPure_people_mem (s : GroupState) (p : PersonDoc) (hp : p ∈ s.people) :
    ∃ p' ∈ (syncPure s).1.people, p'.id = p.id ∧ p'.userId = p.userId ∧
      p'.isPlaceholder = p.isPlaceholder := by
  refine ⟨{ p with perms := (updateDoc p.perms (personPermissions
      (rosterMemberIds s.memberships) (rosterAdminIds s.memberships) p.isPlaceholder)).1 },
    ?_, rfl, rfl, rfl⟩
  show _ ∈ (syncPeople (rosterMemberIds s.memberships) (rosterAdminIds s.memberships)
    s.people).1
  exact List.mem_map_of_mem _ hp

/-- Every person of a reconciled state stems from a stored person with the
same non-ACL fields. -/
theorem syncPure_people_mem_inv (s : GroupState) (p' : PersonDoc)
    (hp : p' ∈ (syncPure s).1.people) :
    ∃ p ∈ s.people, p'.id = p.id ∧ p'.userId = p.userId ∧
      p'.isPlaceholder = p.isPlaceholder := by
  rw [show (syncPure s).1.people =
      (syncPeople (rosterMemberIds s.memberships) (rosterAdminIds s.memberships)
        s.people).1 from rfl] at hp
  obtain ⟨p, hpmem, rfl⟩ := List.mem_map.1 hp
  exact ⟨p, hpmem, rfl, rfl, rfl⟩

/-- Every membership of a reconciled state stems from a stored membership with
the same id. -/
theorem syncPure_memberships_mem_inv (s : GroupState) (m' : MembershipDoc)
    (hm : m' ∈ (syncPure s).1.memberships) :
    ∃ m ∈ s.memberships, m'.id = m.id := by
  rw [show (syncPure s).1.memberships =
      (syncMemberships (rosterMemberIds s.memberships) (rosterAdminIds s.memberships)
        s.memberships).1 from rfl] at hm
  obtain ⟨m, hmmem, rfl⟩ := List.mem_map.1 hm
  exact ⟨m, hmmem, rfl⟩

/-- C8 counterexample: the plain member u2's request to remove membership m3
succeeds, yet m3's Person p3 — which is referenced by a quote — is neither
converted to a placeholder nor deleted (it keeps `userId = "u3"`); instead the
actor's own quote-less Person p2 is deleted, because the silent redirect runs
the person phase on the actor while deleting the named membership. -/
theorem c8_counterexample :
    exC8.quotes.any (fun q => q.personId == "p3") = true ∧
      (removeMember exC8 "u2" "m3").toOption.map (fun st =>
        (st.memberships.map (fun m => m.id),
          st.people.map (fun p => (p.id, p.isPlaceholder, p.userId)))) =
        some (["m1", "m2"], [("p1", false, "u1"), ("p3", false, "u3")]) := by
  decide

/-- C8 amended: when no silent redirect occurs — the actor is an admin or
owner, or the request names the actor's own membership — removeMember
converts the target's quote-referenced Person into an orphaned placeholder
(`userId = ""`, `isPlaceholder = true`) without deleting it, deletes the
Person outright when no quote references it, and deletes the named Membership
document in both cases. -/
theorem c8_remove_member_person_amended (s s' : GroupState) (a mid : String)
    (actorM target : MembershipDoc) (pd : PersonDoc)
    (hact : s.memberships.find? (fun m => m.userId = a) = some actorM)
    (htar : s.memberships.find? (fun m => m.id = mid) = some target)
    (hnored : isAdminRole actorM.role = true ∨ target.userId = actorM.userId)
    (hpid : target.personId ≠ "")
    (hpd : s.people.find? (fun p => p.id = target.personId) = some pd)
    (h : removeMember s a mid = Except.ok s') :
    (s.quotes.any (fun q => q.personId == target.personId) = true →
        ∃ p' ∈ s'.people, p'.id = target.personId ∧ p'.userId = "" ∧
          p'.isPlaceholder = true) ∧
      (s.quotes.any (fun q => q.personId == target.personId) = false →
        ∀ p' ∈ s'.people, p'.id ≠ target.personId) ∧
      (∀ m' ∈ s'.memberships, m'.id ≠ mid) := by
  have hs' := removeMember_ok_inv s s' a mid actorM target hact htar hnored h
  subst hs'
  have hpmem : pd ∈ s.people := List.mem_of_find?_eq_some hpd
  have hpdid : pd.id = target.personId := by simpa using List.find?_some hpd
  have hclean : personCleanup s target.personId =
      (if s.quotes.any (fun q => q.personId == target.personId) then
        { s with people := s.people.map (fun p =>
            if p.id = target.personId then { p with userId := "", isPlaceholder := true }
            else p) }
      else
        { s with people := s.people.filter (fun p => p.id ≠ target.personId) }) := by
    unfold personCleanup
    rw [if_neg hpid, hpd]
  refine ⟨?_, ?_, ?_⟩
  · intro hq
    have hHmem : ({ pd with userId := "", isPlaceholder := true } : PersonDoc) ∈
        ({ personCleanup s target.personId with
            memberships := (personCleanup s target.personId).memberships.filter
              (fun m => m.id ≠ mid) }).people := by
      show _ ∈ (personCleanup s target.personId).people
      rw [hclean, if_pos hq]
      show _ ∈ s.people.map (fun p =>
        if p.id = target.personId then { p with userId := "", isPlaceholder := true } else p)
      have hmm := List.mem_map_of_mem (fun p : PersonDoc =>
        if p.id = target.personId then { p with userId := "", isPlaceholder := true }
        else p) hpmem
      dsimp only at hmm
      rwa [if_pos hpdid] at hmm
    obtain ⟨p', hp'mem, h1, h2, h3⟩ := syncPure_people_mem _ _ hHmem
    refine ⟨p', hp'mem, ?_, ?_, ?_⟩
    · rw [h1]
      exact hpdid
    · rw [h2]
    · rw [h3]
  · intro hq p' hp'
    obtain ⟨p0, hp0mem, hid, -, -⟩ := syncPure_people_mem_inv _ p' hp'
    have hflt : ({ personCleanup s target.personId with
        memberships := (personCleanup s target.personId).memberships.filter
          (fun m => m.id ≠ mid) }).people =
        s.people.filter (fun p => p.id ≠ target.personId) := by
      show (personCleanup s target.personId).people = _
      rw [hclean, if_neg (by simp [hq])]
    rw [hflt] at hp0mem
    have hne := (List.mem_filter.1 hp0mem).2
    intro heq
    rw [heq] at hid
    simp only [decide_eq_true_eq] at hne
    exact hne hid.symm
  · intro m' hm'
    obtain ⟨m0, hm0mem, hid⟩ := syncPure_memberships_mem_inv _ m' hm'
    have hm0 : m0 ∈ (personCleanup s target.personId).memberships.filter
        (fun m => m.id ≠ mid) := hm0mem
    have := (List.mem_filter.1 hm0).2
    intro heq
    rw [heq] at hid
    simp only [decide_eq_true_eq] at this
    exact this hid.symm

/-- Witness for the amended C8: the owner removes member m3, whose person p3
authored a quote; p3 becomes an orphaned placeholder and m3 is deleted. -/
theorem c8_remove_member_person_amended_witness :
    (exC8w.quotes.any (fun q => q.personId == "p3") = true →
        ∃ p' ∈ ((removeMember exC8w "u1" "m3").toOption.getD exC8w).people,
          p'.id = "p3" ∧ p'.userId = "" ∧ p'.isPlaceholder = true) ∧
      (exC8w.quotes.any (fun q => q.personId == "p3") = false →
        ∀ p' ∈ ((removeMember exC8w "u1" "m3").toOption.getD exC8w).people,
          p'.id ≠ "p3") ∧
      (∀ m' ∈ ((removeMember exC8w "u1" "m3").toOption.getD exC8w).memberships,
        m'.id ≠ "m3") :=
  c8_remove_member_person_amended exC8w
    ((removeMember exC8w "u1" "m3").toOption.getD exC8w) "u1" "m3"
    ⟨"m1", "u1", "owner", "Alice", "p1", "", "", []⟩
    ⟨"m3", "u3", "member", "Carol", "p3", "", "", []⟩
    ⟨"p3", "Carol", "u3", false, []⟩
    (by decide) (by decide) (Or.inl (by decide)) (by decide) (by decide) (by decide)

/-- Success test for store results. -/
theorem except_isOk_iff {ε α : Type} (e : Except ε α) :
    e.isOk = true ↔ ∃ x, e = Except.ok x := by
  cases e <;> simp [Except.isOk, Except.toBool]

/-- Every membership survives reconciliation with id, role and userId
intact. -/
theorem syncPure_memberships_mem (s : GroupState) (m : MembershipDoc)
    (hm : m ∈ s.memberships) :
    ∃ m' ∈ (syncPure s).1.memberships, m'.id = m.id ∧ m'.role = m.role ∧
      m'.userId = m.userId := by
  refine ⟨{ m with perms := (updateDoc m.perms (membershipPermissions
      (rosterMemberIds s.memberships) (rosterAdminIds s.memberships) m.userId)).1 },
    ?_, rfl, rfl, rfl⟩
  show _ ∈ (syncMemberships (rosterMemberIds s.memberships) (rosterAdminIds s.memberships)
    s.memberships).1
  exact List.mem_map_of_mem _ hm

/-- Closed form of `updateMemberRole` once the actor and target lookups are
known. -/
theorem updateMemberRole_eq (s : GroupState) (a mid r : String)
    (actorM target : MembershipDoc)
    (hmid : mid ≠ "") (hrne : r ≠ "")
    (hact : s.memberships.find? (fun m => m.userId = a) = some actorM)
    (htar : s.memberships.find? (fun m => m.id = mid) = some target) :
    updateMemberRole s a mid r =
      (if target.role = "owner" then Except.error "Use transfer ownership instead."
       else if r = "admin" then
         if actorM.role = "member" then Except.error "Admin permissions required."
         else (syncGroupPermissionsInternal true a { s with
            memberships := s.memberships.map (fun m =>
              if m.id = mid then { m with role := r } else m) }).map (fun x => x.1)
       else if r = "member" then
         if actorM.role ≠ "owner" then Except.error "Only the owner can remove admins."
         else (syncGroupPermissionsInternal true a { s with
            memberships := s.memberships.map (fun m =>
              if m.id = mid then { m with role := r } else m) }).map (fun x => x.1)
       else Except.error "Invalid role.") := by
  unfold updateMemberRole
  rw [if_neg (by simp [hmid, hrne])]
  rw [hact]
  dsimp only
  rw [htar]

/-- C7: `updateMemberRole` authorizes exactly as implemented: the owner
membership is never a valid target; promotion to admin succeeds exactly when
the actor is admin or owner; demotion to member succeeds exactly when the
actor is the owner; any other requested role is rejected.  On success the
target's role is written. -/
theorem c7_updateMemberRole_auth (s : GroupState) (a mid r : String)
    (actorM target : MembershipDoc)
    (hmid : mid ≠ "")
    (hnodup : (s.memberships.map (fun m => m.id)).Nodup)
    (hact : s.memberships.find? (fun m => m.userId = a) = some actorM)
    (htar : s.memberships.find? (fun m => m.id = mid) = some target)
    (hvalid : actorM.role = "owner" ∨ actorM.role = "admin" ∨ actorM.role = "member") :
    ((updateMemberRole s a mid r).isOk = true ↔
      (¬ target.role = "owner" ∧
        ((r = "admin" ∧ (actorM.role = "admin" ∨ actorM.role = "owner")) ∨
          (r = "member" ∧ actorM.role = "owner")))) ∧
    (∀ s', updateMemberRole s a mid r = Except.ok s' →
      ∃ t' ∈ s'.memberships, t'.id = mid ∧ t'.role = r) := by
  have htid : target.id = mid := by simpa using List.find?_some htar
  have htmem : target ∈ s.memberships := List.mem_of_find?_eq_some htar
  have hamem : actorM ∈ s.memberships := List.mem_of_find?_eq_some hact
  constructor
  · constructor
    · intro hok
      obtain ⟨s', hs'⟩ := (except_isOk_iff _).1 hok
      obtain ⟨aM, tM, hact2, htar2, hrole2, hauth, -⟩ :=
        updateMemberRole_ok_inv s s' a mid r hs'
      have haM : aM = actorM := by
        rw [hact2] at hact
        injection hact
      have htM : tM = target := by
        rw [htar2] at htar
        injection htar
      subst haM
      subst htM
      refine ⟨hrole2, ?_⟩
      rcases hauth with ⟨h1, h2⟩ | ⟨h1, h2⟩
      · refine Or.inl ⟨h1, ?_⟩
        rcases hvalid with h3 | h3 | h3
        · exact Or.inr h3
        · exact Or.inl h3
        · exact absurd h3 h2
      · exact Or.inr ⟨h1, h2⟩
    · rintro ⟨hno, hcond⟩
      have hrne : r ≠ "" := by
        rcases hcond with ⟨h1, -⟩ | ⟨h1, -⟩ <;> simp [h1]
      rw [except_isOk_iff]
      have hadm : isAdminRole
          ((if actorM.id = mid then { actorM with role := r } else actorM)).role = true := by
        by_cases hh : actorM.id = mid
        · rw [if_pos hh]
          have hat : actorM = target :=
            List.inj_on_of_nodup_map hnodup hamem htmem (by rw [hh, htid])
          rcases hcond with ⟨h1, h2⟩ | ⟨h1, h2⟩
          · show isAdminRole r = true
            rw [h1]
            decide
          · exact absurd (hat ▸ h2) hno
        · rw [if_neg hh]
          rcases hcond with ⟨h1, h2⟩ | ⟨h1, h2⟩
          · rcases h2 with h3 | h3 <;> simp [isAdminRole, h3]
          · simp [isAdminRole, h2]
      have hfind1 : ({ s with memberships := s.memberships.map (fun m =>
          if m.id = mid then { m with role := r } else m) } : GroupState).memberships.find?
            (fun m => m.userId = a) =
          some (if actorM.id = mid then { actorM with role := r } else actorM) := by
        show (s.memberships.map (fun m =>
          if m.id = mid then { m with role := r } else m)).find? (fun m => m.userId = a) = _
        rw [find?_map_pres (fun m : MembershipDoc =>
            if m.id = mid then { m with role := r } else m)
          (fun m : MembershipDoc => decide (m.userId = a))
          (fun m => by by_cases hh : m.id = mid <;> simp [hh]), hact]
        rfl
      have hsync := syncInternal_ok_of_admin a _ _ hfind1 hadm
      rw [updateMemberRole_eq s a mid r actorM target hmid hrne hact htar]
      rw [if_neg hno]
      rcases hcond with ⟨h1, h2⟩ | ⟨h1, h2⟩
      · rw [if_pos h1, if_neg (by rcases h2 with h3 | h3 <;> simp [h3])]
        rw [hsync]
        exact ⟨_, rfl⟩
      · rw [if_neg (by simp [h1]), if_pos h1, if_neg (by simp [h2])]
        rw [hsync]
        exact ⟨_, rfl⟩
  · intro s' hs'
    obtain ⟨aM, tM, hact2, htar2, hrole2, hauth, hs1⟩ :=
      updateMemberRole_ok_inv s s' a mid r hs'
    have htid2 : tM.id = mid := by simpa using List.find?_some htar2
    have htmem2 : tM ∈ s.memberships := List.mem_of_find?_eq_some htar2
    subst hs1
    have hmem : ({ tM with role := r } : MembershipDoc) ∈
        ({ s with memberships := s.memberships.map (fun m =>
          if m.id = mid then { m with role := r } else m) } : GroupState).memberships := by
      show _ ∈ s.memberships.map (fun m =>
        if m.id = mid then { m with role := r } else m)
      have hmm := List.mem_map_of_mem (fun m : MembershipDoc =>
        if m.id = mid then { m with role := r } else m) htmem2
      dsimp only at hmm
      rwa [if_pos htid2] at hmm
    obtain ⟨t', ht'mem, hi, hrr, -⟩ := syncPure_memberships_mem _ _ hmem
    refine ⟨t', ht'mem, ?_, ?_⟩
    · rw [hi]
      exact htid2
    · rw [hrr]

/-- Witness for C7: admin u2 promotes member u3 (via membership m3) to admin;
the call succeeds and writes the role. -/
theorem c7_updateMemberRole_auth_witness :
    ((updateMemberRole exC7 "u2" "m3" "admin").isOk = true ↔
      (¬ ("member" : String) = "owner" ∧
        ((("admin" : String) = "admin" ∧
            (("admin" : String) = "admin" ∨ ("admin" : String) = "owner")) ∨
          (("admin" : String) = "member" ∧ ("admin" : String) = "owner")))) ∧
    (∀ s', updateMemberRole exC7 "u2" "m3" "admin" = Except.ok s' →
      ∃ t' ∈ s'.memberships, t'.id = "m3" ∧ t'.role = "admin") :=
  c7_updateMemberRole_auth exC7 "u2" "m3" "admin"
    ⟨"m2", "u2", "admin", "Bob", "p2", "", "", []⟩
    ⟨"m3", "u3", "member", "Carol", "p3", "", "", []⟩
    (by decide) (by decide) (by decide) (by decide) (Or.inr (Or.inl rfl))

/-- Every generated code symbol comes from the invite alphabet. -/
theorem randomInviteCode_chars (d : List Nat) :
    ∀ c ∈ (randomInviteCode d).data, c ∈ alphabet := by
  intro c hc
  simp only [randomInviteCode] at hc
  obtain ⟨v, -, rfl⟩ := List.mem_map.1 hc
  have hlt : v % alphabet.length < alphabet.length := Nat.mod_lt _ (by decide)
  rw [List.getD_eq_getElem alphabet 'A' hlt]
  exact List.getElem_mem hlt

/-- If every draw collides with an existing code, the retry loop consumes all
draws and reports the exhaustion error. -/
theorem createInviteGo_all_collide (existing : List String) (ds : List (List Nat))
    (h : ∀ d ∈ ds, existing.contains (randomInviteCode d) = true) :
    createInviteGo existing ds =
      (Except.error "Could not generate a unique invite code.", ds.length) := by
  induction ds with
  | nil => rfl
  | cons d ds ih =>
    have hc := h d (List.mem_cons_self d ds)
    simp only [createInviteGo, hc, if_true]
    rw [ih (fun x hx => h x (List.mem_cons_of_mem _ hx))]
    rfl

/-- A successful run of the retry loop returns a drawn code that was checked
for uniqueness against the existing invites. -/
theorem createInviteGo_ok (existing : List String) (ds : List (List Nat)) (c : String)
    (h : (createInviteGo existing ds).1 = Except.ok c) :
    existing.contains c = false ∧ ∃ d ∈ ds, c = randomInviteCode d := by
  induction ds with
  | nil => exact absurd h (by simp [createInviteGo])
  | cons d ds ih =>
    by_cases hc : existing.contains (randomInviteCode d) = true
    · simp only [createInviteGo, hc, if_true] at h
      obtain ⟨h1, d0, hd0, hc0⟩ := ih h
      exact ⟨h1, d0, List.mem_cons_of_mem _ hd0, hc0⟩
    · simp only [createInviteGo, hc, if_false] at h
      have hcc : c = randomInviteCode d := by
        have h' : Except.ok (randomInviteCode d) = (Except.ok c : Except String String) := h
        injection h' with h''
        exact h''.symm
      subst hcc
      exact ⟨Bool.not_eq_true _ ▸ hc, d, List.mem_cons_self d ds, rfl⟩

/-- C6: invite generation draws 8-symbol codes from the 32-symbol alphabet
with I, O, 0 and 1 excluded; each drawn code is checked against the existing
invites and retried on collision; when every one of the `maxAttempts = 5`
draws collides, the loop fails with the generation-exhausted error after
exactly 5 attempts; a successful attempt creates the invite with the first
drawn code that was free. -/
theorem c6_invite_generation (existingCodes : List String) (draws : List (List Nat)) :
    (alphabet.length = 32 ∧ 'I' ∉ alphabet ∧ 'O' ∉ alphabet ∧
      '0' ∉ alphabet ∧ '1' ∉ alphabet) ∧
    (∀ d ∈ draws, d.length = 8 →
      (randomInviteCode d).length = 8 ∧ ∀ c ∈ (randomInviteCode d).data, c ∈ alphabet) ∧
    ((maxAttempts ≤ draws.length ∧
        ∀ d ∈ draws.take maxAttempts, existingCodes.contains (randomInviteCode d) = true) →
      createInviteDocument existingCodes draws =
        (Except.error "Could not generate a unique invite code.", maxAttempts)) ∧
    (∀ c, (createInviteDocument existingCodes draws).1 = Except.ok c →
      existingCodes.contains c = false ∧
        ∃ d ∈ draws.take maxAttempts, c = randomInviteCode d) := by
  refine ⟨by decide, ?_, ?_, ?_⟩
  · intro d _ hd8
    constructor
    · show (String.mk (d.map (fun v => alphabet.getD (v % alphabet.length) 'A'))).length = 8
      simp [String.length, hd8]
    · exact randomInviteCode_chars d
  · rintro ⟨hlen, hcol⟩
    unfold createInviteDocument
    rw [createInviteGo_all_collide existingCodes _ hcol, List.length_take,
      Nat.min_eq_left hlen]
  · intro c h
    exact createInviteGo_ok existingCodes _ c h

/-- Witness for C6 at a concrete draw sequence: the first three draws collide
with the existing code of all-A symbols, the remaining draws are free. -/
theorem c6_invite_generation_witness :
    ((alphabet.length = 32 ∧ 'I' ∉ alphabet ∧ 'O' ∉ alphabet ∧
      '0' ∉ alphabet ∧ '1' ∉ alphabet) ∧
    (∀ d ∈ [[0, 0, 0, 0, 0, 0, 0, 0], [32, 32, 32, 32, 32, 32, 32, 32],
        [0, 0, 0, 0, 0, 0, 0, 0], [1, 2, 3, 4, 5, 6, 7, 8],
        [9, 9, 9, 9, 9, 9, 9, 9]], d.length = 8 →
      (randomInviteCode d).length = 8 ∧ ∀ c ∈ (randomInviteCode d).data, c ∈ alphabet) ∧
    ((maxAttempts ≤ ([[0, 0, 0, 0, 0, 0, 0, 0], [32, 32, 32, 32, 32, 32, 32, 32],
        [0, 0, 0, 0, 0, 0, 0, 0], [1, 2, 3, 4, 5, 6, 7, 8],
        [9, 9, 9, 9, 9, 9, 9, 9]] : List (List Nat)).length ∧
        ∀ d ∈ ([[0, 0, 0, 0, 0, 0, 0, 0], [32, 32, 32, 32, 32, 32, 32, 32],
          [0, 0, 0, 0, 0, 0, 0, 0], [1, 2, 3, 4, 5, 6, 7, 8],
          [9, 9, 9, 9, 9, 9, 9, 9]] : List (List Nat)).take maxAttempts,
          (["AAAAAAAA"] : List String).contains (randomInviteCode d) = true) →
      createInviteDocument ["AAAAAAAA"] [[0, 0, 0, 0, 0, 0, 0, 0],
        [32, 32, 32, 32, 32, 32, 32, 32], [0, 0, 0, 0, 0, 0, 0, 0],
        [1, 2, 3, 4, 5, 6, 7, 8], [9, 9, 9, 9, 9, 9, 9, 9]] =
        (Except.error "Could not generate a unique invite code.", maxAttempts)) ∧
    (∀ c, (createInviteDocument ["AAAAAAAA"] [[0, 0, 0, 0, 0, 0, 0, 0],
        [32, 32, 32, 32, 32, 32, 32, 32], [0, 0, 0, 0, 0, 0, 0, 0],
        [1, 2, 3, 4, 5, 6, 7, 8], [9, 9, 9, 9, 9, 9, 9, 9]]).1 = Except.ok c →
      (["AAAAAAAA"] : List String).contains c = false ∧
        ∃ d ∈ ([[0, 0, 0, 0, 0, 0, 0, 0], [32, 32, 32, 32, 32, 32, 32, 32],
          [0, 0, 0, 0, 0, 0, 0, 0], [1, 2, 3, 4, 5, 6, 7, 8],
          [9, 9, 9, 9, 9, 9, 9, 9]] : List (List Nat)).take maxAttempts,
          c = randomInviteCode d)) :=
  c6_invite_generation ["AAAAAAAA"]
    [[0, 0, 0, 0, 0, 0, 0, 0], [32, 32, 32, 32, 32, 32, 32, 32],
      [0, 0, 0, 0, 0, 0, 0, 0], [1, 2, 3, 4, 5, 6, 7, 8], [9, 9, 9, 9, 9, 9, 9, 9]]

/-- C9: `joinGroupByCode` resolves the trimmed upper-cased code (invalid
invite error when absent); a caller who already holds a Membership gets it
back unchanged with no documents created; otherwise exactly one
non-placeholder Person and one `member` Membership are created and
reconciliation runs with the admin check suppressed, so the call succeeds
even though the joining caller is not an admin. -/
theorem c9_joinGroupByCode (s : GroupState) (actorId code dn : String)
    (hc : jsToUpper (jsTrim code) ≠ "") :
    (s.invites.find? (fun i => i.code = jsToUpper (jsTrim code)) = none →
      joinGroupByCode s actorId code dn = Except.error "Invite code is invalid.") ∧
    (∀ inv, s.invites.find? (fun i => i.code = jsToUpper (jsTrim code)) = some inv →
      ∀ m, s.memberships.find? (fun mm => mm.userId = actorId) = some m →
        joinGroupByCode s actorId code dn = Except.ok ⟨s, m,
          if m.personId = "" then none
          else s.people.find? (fun p => p.id = m.personId)⟩) ∧
    (∀ inv, s.invites.find? (fun i => i.code = jsToUpper (jsTrim code)) = some inv →
      s.memberships.find? (fun mm => mm.userId = actorId) = none →
      ∃ r, joinGroupByCode s actorId code dn = Except.ok r ∧
        r.membership.role = "member" ∧ r.membership.userId = actorId ∧
        (∃ p, r.person = some p ∧ p.isPlaceholder = false ∧ p.userId = actorId ∧
          p.id = r.membership.personId) ∧
        r.state.memberships.length = s.memberships.length + 1 ∧
        r.state.people.length = s.people.length + 1 ∧
        (∃ mm ∈ r.state.memberships, mm.id = r.membership.id ∧ mm.userId = actorId ∧
          mm.role = "member") ∧
        (∃ pp ∈ r.state.people, pp.id = r.membership.personId ∧ pp.userId = actorId ∧
          pp.isPlaceholder = false)) := by
  refine ⟨?_, ?_, ?_⟩
  · intro hnone
    unfold joinGroupByCode
    dsimp only
    rw [if_neg hc, hnone]
  · intro inv hinv m hm
    unfold joinGroupByCode
    dsimp only
    rw [if_neg hc, hinv]
    dsimp only
    rw [hm]
  · intro inv hinv hnone
    set dName := jsTrim (jsOr dn "Member") with hdName
    set mIds := unique (rosterMemberIds s.memberships ++ [actorId]) with hmIds
    set aIds := rosterAdminIds s.memberships with haIds
    set pDoc : PersonDoc := ⟨genId s.fresh, dName, actorId, false,
      personPermissions mIds aIds false⟩ with hpDoc
    set mDoc : MembershipDoc := ⟨genId (s.fresh + 1), actorId, "member", dName,
      pDoc.id, "", "", membershipPermissions mIds aIds actorId⟩ with hmDoc
    set s1 : GroupState := { s with
      people := s.people ++ [pDoc],
      memberships := s.memberships ++ [mDoc],
      fresh := s.fresh + 2 } with hs1
    have hjoin : joinGroupByCode s actorId code dn =
        Except.ok ⟨(syncPure s1).1, mDoc, some pDoc⟩ := by
      unfold joinGroupByCode
      dsimp only
      rw [if_neg hc, hinv]
      dsimp only
      rw [hnone]
      rfl
    refine ⟨⟨(syncPure s1).1, mDoc, some pDoc⟩, hjoin, rfl, rfl,
      ⟨pDoc, rfl, rfl, rfl, rfl⟩, ?_, ?_, ?_, ?_⟩
    · show (syncPure s1).1.memberships.length = s.memberships.length + 1
      rw [show (syncPure s1).1.memberships =
        (syncMemberships (rosterMemberIds s1.memberships) (rosterAdminIds s1.memberships)
          s1.memberships).1 from rfl]
      show (s1.memberships.map _).length = _
      rw [List.length_map]
      show (s.memberships ++ [mDoc]).length = _
      simp
    · show (syncPure s1).1.people.length = s.people.length + 1
      rw [show (syncPure s1).1.people =
        (syncPeople (rosterMemberIds s1.memberships) (rosterAdminIds s1.memberships)
          s1.people).1 from rfl]
      show (s1.people.map _).length = _
      rw [List.length_map]
      show (s.people ++ [pDoc]).length = _
      simp
    · obtain ⟨mm, hmm, h1, h2, h3⟩ := syncPure_memberships_mem s1 mDoc (by
        show mDoc ∈ s.memberships ++ [mDoc]
        simp)
      refine ⟨mm, hmm, h1, ?_, ?_⟩
      · rw [h3]
      · rw [h2]
    · obtain ⟨pp, hpp, h1, h2, h3⟩ := syncPure_people_mem s1 pDoc (by
        show pDoc ∈ s.people ++ [pDoc]
        simp)
      refine ⟨pp, hpp, ?_, ?_, ?_⟩
      · rw [h1]
      · rw [h2]
      · rw [h3]

/-- Witness for C9 at a concrete group: the new caller u9 joins via the code
" abc23xyz " (trimmed and upper-cased to the stored "ABC23XYZ"), getting a
fresh member Membership and non-placeholder Person. -/
theorem c9_joinGroupByCode_witness :
    ((exC9.invites.find? (fun i => i.code = jsToUpper (jsTrim " abc23xyz ")) = none →
      joinGroupByCode exC9 "u9" " abc23xyz " "Dana" =
        Except.error "Invite code is invalid.") ∧
    (∀ inv, exC9.invites.find? (fun i => i.code = jsToUpper (jsTrim " abc23xyz ")) =
        some inv →
      ∀ m, exC9.memberships.find? (fun mm => mm.userId = "u9") = some m →
        joinGroupByCode exC9 "u9" " abc23xyz " "Dana" = Except.ok ⟨exC9, m,
          if m.personId = "" then none
          else exC9.people.find? (fun p => p.id = m.personId)⟩) ∧
    (∀ inv, exC9.invites.find? (fun i => i.code = jsToUpper (jsTrim " abc23xyz ")) =
        some inv →
      exC9.memberships.find? (fun mm => mm.userId = "u9") = none →
      ∃ r, joinGroupByCode exC9 "u9" " abc23xyz " "Dana" = Except.ok r ∧
        r.membership.role = "member" ∧ r.membership.userId = "u9" ∧
        (∃ p, r.person = some p ∧ p.isPlaceholder = false ∧ p.userId = "u9" ∧
          p.id = r.membership.personId) ∧
        r.state.memberships.length = exC9.memberships.length + 1 ∧
        r.state.people.length = exC9.people.length + 1 ∧
        (∃ mm ∈ r.state.memberships, mm.id = r.membership.id ∧ mm.userId = "u9" ∧
          mm.role = "member") ∧
        (∃ pp ∈ r.state.people, pp.id = r.membership.personId ∧ pp.userId = "u9" ∧
          pp.isPlaceholder = false))) :=
  c9_joinGroupByCode exC9 "u9" " abc23xyz " "Dana" (by decide)

/-- C5, amended: claim/unclaim round trip.  For a member with a profile and no
active claim, claiming a placeholder and immediately unclaiming leaves every
quote that pointed at the placeholder pointing at a single newly created
placeholder, and clears both claim fields on the membership; the new
placeholder carries the original's name provided that name is non-empty
(`hname`), which holds for every placeholder created through
`createPlaceholderPerson` but not for the reachable empty-named ones, where
the recreated placeholder is instead seeded "Placeholder". -/
theorem c5_claim_unclaim_round_trip (s : GroupState) (actorId pid : String)
    (m : MembershipDoc) (ph : PersonDoc)
    (hm : s.memberships.find? (fun x => x.userId = actorId) = some m)
    (hpid : pid ≠ "")
    (hpersonId : m.personId ≠ "")
    (hnoclaim : m.claimedPlaceholderId = "")
    (hph : s.people.find? (fun p => p.id = pid) = some ph)
    (hphb : ph.isPlaceholder = true)
    (hname : ph.name ≠ "") :
    ∃ s1 s2, claimPlaceholder s actorId pid = Except.ok s1 ∧
      unclaimPlaceholder s1 actorId = Except.ok s2 ∧
      (∃ p2 ∈ s2.people, p2.id = genId s1.fresh ∧ p2.name = ph.name ∧
        p2.isPlaceholder = true) ∧
      (∀ q ∈ s.quotes, q.personId = pid →
        ∃ q2 ∈ s2.quotes, q2.id = q.id ∧ q2.personId = genId s1.fresh) ∧
      (∃ m2 ∈ s2.memberships, m2.id = m.id ∧ m2.claimedPlaceholderId = "" ∧
        m2.claimedPlaceholderName = "") := by
  let C : GroupState := { s with
    quotes := s.quotes.map (fun q =>
      if q.personId = pid then
        { q with personId := m.personId, sourcePlaceholderId := pid }
      else q),
    people := s.people.filter (fun p => p.id ≠ pid),
    memberships := s.memberships.map (fun mm =>
      if mm.id = m.id then
        { mm with claimedPlaceholderId := pid, claimedPlaceholderName := ph.name }
      else mm) }
  let U : GroupState := { C with
    people := C.people ++ [⟨genId C.fresh, jsOr ph.name "Placeholder", "", true,
      personPermissions (rosterMemberIds C.memberships) (rosterAdminIds C.memberships)
        true⟩],
    quotes := C.quotes.map (fun qq =>
      if qq.sourcePlaceholderId = pid then { qq with personId := genId C.fresh } else qq),
    memberships := C.memberships.map (fun mm =>
      if mm.id = m.id then
        { mm with claimedPlaceholderId := "", claimedPlaceholderName := "" }
      else mm),
    fresh := C.fresh + 1 }
  have hclaim : claimPlaceholder s actorId pid = Except.ok C := by
    unfold claimPlaceholder
    rw [if_neg hpid, hm]
    dsimp only
    rw [if_neg hpersonId, if_neg (by simp [hnoclaim]), hph]
    dsimp only
    rw [if_neg (by simp [hphb])]
  have hfind1 : C.memberships.find? (fun x => x.userId = actorId) =
      some { m with claimedPlaceholderId := pid, claimedPlaceholderName := ph.name } := by
    show (s.memberships.map (fun mm =>
      if mm.id = m.id then
        { mm with claimedPlaceholderId := pid, claimedPlaceholderName := ph.name }
      else mm)).find? (fun x => x.userId = actorId) = _
    rw [find?_map_pres (fun mm : MembershipDoc =>
        if mm.id = m.id then
          { mm with claimedPlaceholderId := pid, claimedPlaceholderName := ph.name }
        else mm)
      (fun x : MembershipDoc => decide (x.userId = actorId))
      (fun x => by by_cases hh : x.id = m.id <;> simp [hh]), hm]
    rw [Option.map_some']
    rw [if_pos rfl]
  have hunclaim : unclaimPlaceholder C actorId = Except.ok U := by
    unfold unclaimPlaceholder
    rw [hfind1]
    dsimp only
    rw [if_neg hpersonId, if_neg hpid]
  refine ⟨C, U, hclaim, hunclaim, ?_, ?_, ?_⟩
  · refine ⟨⟨genId C.fresh, jsOr ph.name "Placeholder", "", true,
      personPermissions (rosterMemberIds C.memberships) (rosterAdminIds C.memberships)
        true⟩, ?_, rfl, ?_, rfl⟩
    · show _ ∈ C.people ++ [(⟨genId C.fresh, jsOr ph.name "Placeholder", "", true,
        personPermissions (rosterMemberIds C.memberships) (rosterAdminIds C.memberships)
          true⟩ : PersonDoc)]
      simp
    · show jsOr ph.name "Placeholder" = ph.name
      unfold jsOr
      rw [if_neg hname]
  · intro q hq hqp
    have e1 : (fun q : QuoteDoc =>
        if q.personId = pid then
          { q with personId := m.personId, sourcePlaceholderId := pid }
        else q) q =
        { q with personId := m.personId, sourcePlaceholderId := pid } := by
      dsimp only
      rw [if_pos hqp]
    have h1 : ({ q with personId := m.personId, sourcePlaceholderId := pid } : QuoteDoc)
        ∈ C.quotes := by
      show _ ∈ s.quotes.map (fun q : QuoteDoc =>
        if q.personId = pid then
          { q with personId := m.personId, sourcePlaceholderId := pid }
        else q)
      rw [← e1]
      exact List.mem_map_of_mem _ hq
    have e2 : (fun qq : QuoteDoc =>
        if qq.sourcePlaceholderId = pid then { qq with personId := genId C.fresh } else qq)
        ({ q with personId := m.personId, sourcePlaceholderId := pid } : QuoteDoc) =
        { q with personId := genId C.fresh, sourcePlaceholderId := pid } := by
      dsimp only
      rw [if_pos rfl]
    have h2 : ({ q with personId := genId C.fresh, sourcePlaceholderId := pid } : QuoteDoc)
        ∈ U.quotes := by
      show _ ∈ C.quotes.map (fun qq : QuoteDoc =>
        if qq.sourcePlaceholderId = pid then { qq with personId := genId C.fresh } else qq)
      rw [← e2]
      exact List.mem_map_of_mem _ h1
    exact ⟨_, h2, rfl, rfl⟩
  · have hmc : ({ m with claimedPlaceholderId := pid, claimedPlaceholderName := ph.name }
        : MembershipDoc) ∈ C.memberships := List.mem_of_find?_eq_some hfind1
    have e3 : (fun mm : MembershipDoc =>
        if mm.id = m.id then
          { mm with claimedPlaceholderId := "", claimedPlaceholderName := "" }
        else mm)
        ({ m with claimedPlaceholderId := pid, claimedPlaceholderName := ph.name }
          : MembershipDoc) =
        { m with claimedPlaceholderId := "", claimedPlaceholderName := "" } := by
      dsimp only
      rw [if_pos rfl]
    have h3 : ({ m with claimedPlaceholderId := "", claimedPlaceholderName := "" }
        : MembershipDoc) ∈ U.memberships := by
      show _ ∈ C.memberships.map (fun mm : MembershipDoc =>
        if mm.id = m.id then
          { mm with claimedPlaceholderId := "", claimedPlaceholderName := "" }
        else mm)
      rw [← e3]
      exact List.mem_map_of_mem _ hmc
    exact ⟨_, h3, rfl, rfl, rfl⟩

/-- Witness for C5: member u2 claims the placeholder p9 and unclaims; both
quotes q1 and q2 end up on the recreated "Grandpa" placeholder and the claim
fields are cleared. -/
theorem c5_claim_unclaim_round_trip_witness :
    ∃ s1 s2, claimPlaceholder exC5 "u2" "p9" = Except.ok s1 ∧
      unclaimPlaceholder s1 "u2" = Except.ok s2 ∧
      (∃ p2 ∈ s2.people, p2.id = genId s1.fresh ∧ p2.name = "Grandpa" ∧
        p2.isPlaceholder = true) ∧
      (∀ q ∈ exC5.quotes, q.personId = "p9" →
        ∃ q2 ∈ s2.quotes, q2.id = q.id ∧ q2.personId = genId s1.fresh) ∧
      (∃ m2 ∈ s2.memberships, m2.id = "m2" ∧ m2.claimedPlaceholderId = "" ∧
        m2.claimedPlaceholderName = "") :=
  c5_claim_unclaim_round_trip exC5 "u2" "p9"
    ⟨"m2", "u2", "member", "Bob", "p2", "", "", []⟩
    ⟨"p9", "Grandpa", "", true, []⟩
    (by decide) (by decide) (by decide) (by decide) (by decide) (by decide) (by decide)

/-- C10: reconciliation is a pure ACL write: a successful
`syncGroupPermissionsInternal` run (with or without the admin check) keeps the
group's own attributes and, for every Membership, Person, Quote and Invite
document, every attribute other than `$permissions`, as well as the documents
themselves and their order. -/
theorem c10_sync_frame (e : Bool) (a : String) (s s' : GroupState) (n : Nat)
    (h : syncGroupPermissionsInternal e a s = Except.ok (s', n)) :
    s'.groupName = s.groupName ∧ s'.ownerId = s.ownerId ∧ s'.fresh = s.fresh ∧
      s'.memberships.map stripMembership = s.memberships.map stripMembership ∧
      s'.people.map stripPerson = s.people.map stripPerson ∧
      s'.quotes.map stripQuote = s.quotes.map stripQuote ∧
      s'.invites.map stripInvite = s.invites.map stripInvite := by
  have hr : (s', n) = syncPure s := syncInternal_ok_any e a s (s', n) h
  have hs' : s' = (syncPure s).1 := congrArg Prod.fst hr
  subst hs'
  refine ⟨rfl, rfl, rfl, ?_, ?_, ?_, ?_⟩
  · show ((s.memberships.map (fun mm : MembershipDoc =>
      { mm with perms := (updateDoc mm.perms (membershipPermissions
        (rosterMemberIds s.memberships) (rosterAdminIds s.memberships)
        mm.userId)).1 })).map stripMembership) = _
    rw [List.map_map]
    exact List.map_congr_left (fun mm _ => rfl)
  · show ((s.people.map (fun p : PersonDoc =>
      { p with perms := (updateDoc p.perms (personPermissions
        (rosterMemberIds s.memberships) (rosterAdminIds s.memberships)
        p.isPlaceholder)).1 })).map stripPerson) = _
    rw [List.map_map]
    exact List.map_congr_left (fun p _ => rfl)
  · show ((s.quotes.map (fun q : QuoteDoc =>
      { q with perms := (updateDoc q.perms (quotePermissions
        (rosterMemberIds s.memberships) (rosterAdminIds s.memberships))).1 })).map
      stripQuote) = _
    rw [List.map_map]
    exact List.map_congr_left (fun q _ => rfl)
  · show ((s.invites.map (fun i : InviteDoc =>
      { i with perms := (updateDoc i.perms (invitePermissions
        (rosterAdminIds s.memberships))).1 })).map stripInvite) = _
    rw [List.map_map]
    exact List.map_congr_left (fun i _ => rfl)

/-- Witness for C10 at a concrete group with stale ACLs: the reconciled state
keeps every non-ACL attribute of every document. -/
theorem c10_sync_frame_witness :
    (syncPure exC10).1.groupName = exC10.groupName ∧
      (syncPure exC10).1.ownerId = exC10.ownerId ∧
      (syncPure exC10).1.fresh = exC10.fresh ∧
      (syncPure exC10).1.memberships.map stripMembership =
        exC10.memberships.map stripMembership ∧
      (syncPure exC10).1.people.map stripPerson = exC10.people.map stripPerson ∧
      (syncPure exC10).1.quotes.map stripQuote = exC10.quotes.map stripQuote ∧
      (syncPure exC10).1.invites.map stripInvite = exC10.invites.map stripInvite :=
  c10_sync_frame true "u1" exC10 (syncPure exC10).1 (syncPure exC10).2 (by rfl)

/-- C5 counterexample: at a group whose placeholder p9 has the empty name ""
(reachable in the source: a whitespace display name trims to "" on join, and
removing that member converts the quote-bearing Person back into a placeholder
keeping its name), claiming p9 and immediately unclaiming succeeds, but the
quote ends up pointing at a newly created placeholder named "Placeholder",
which is not equal to the original placeholder's name "" — refuting the
unqualified claim that the new placeholder's name equals P's name. -/
theorem c5_counterexample :
    (exC5c.people.map (fun p => (p.id, p.name, p.isPlaceholder)) =
      [("p1", "Alice", false), ("p2", "Bob", false), ("p9", "", true)] ∧
     exC5c.quotes.map (fun q => (q.id, q.personId)) = [("q1", "p9")]) ∧
    (((claimPlaceholder exC5c "u2" "p9").toOption.bind (fun s1 =>
        (unclaimPlaceholder s1 "u2").toOption)).map (fun s2 =>
        (s2.people.map (fun p => (p.id, p.name, p.isPlaceholder)),
         s2.quotes.map (fun q => (q.id, q.personId)))) =
      some ([("p1", "Alice", false), ("p2", "Bob", false),
             ("gen_0", "Placeholder", true)], [("q1", "gen_0")])) ∧
    ("Placeholder" : String) ≠ "" := by decide
